import Mathlib

/-!
Verification development for the cookidoo-mcp recipe converter.

Shallow embedding of `src/thermomix_converter.py`, `src/models.py` and
`src/constants.py`.  Python strings are Lean `String`s (lists of unicode
characters, as in CPython), Python `float` values are modelled as exact
rationals (every numeric literal the claims touch is exactly representable),
Python `None`-able values are `Option`s, and the one code path that can raise
an uncaught exception is modelled with `Except PyErr`.  Each regular
expression of the source is hand-compiled to an explicit matcher with the
same leftmost / greedy / ordered-alternation semantics, specialised to the
pattern in question.  The whitespace class models the ASCII part of
Python's re whitespace, and accent stripping / lowercasing are modelled on
the ASCII plus Latin-1 letter repertoire actually used by the keyword
tables; these are the only deliberate restrictions of the model.
-/

/-- Errors a Python snippet can raise; only an uncaught `ValueError` is
reachable in the embedded code. -/
inductive PyErr where
  | valueError
deriving DecidableEq, Repr

/-- ASCII part of Python's regex whitespace class. -/
def isPySpace (c : Char) : Bool :=
  c = ' ' || c = '\t' || c = '\n' || c = '\x0d' || c = '\x0b' || c = '\x0c'

/-- Python `str.lower` restricted to ASCII and the Latin-1 letters used in
the repository's keyword tables and test inputs. -/
def pyLowerChar (c : Char) : Char :=
  if 'A' ≤ c ∧ c ≤ 'Z' then Char.ofNat (c.toNat + 32)
  else if c = 'À' then 'à' else if c = 'Â' then 'â' else if c = 'Ä' then 'ä'
  else if c = 'É' then 'é' else if c = 'È' then 'è' else if c = 'Ê' then 'ê'
  else if c = 'Ë' then 'ë' else if c = 'Î' then 'î' else if c = 'Ï' then 'ï'
  else if c = 'Ô' then 'ô' else if c = 'Ö' then 'ö' else if c = 'Ù' then 'ù'
  else if c = 'Û' then 'û' else if c = 'Ü' then 'ü' else if c = 'Ç' then 'ç'
  else c

/-- One step of `_strip_accents` (NFKD + drop combining marks), modelled as a
character map on the Latin-1 letter repertoire. -/
def stripAccentChar (c : Char) : Char :=
  if c = 'à' ∨ c = 'â' ∨ c = 'ä' then 'a'
  else if c = 'é' ∨ c = 'è' ∨ c = 'ê' ∨ c = 'ë' then 'e'
  else if c = 'î' ∨ c = 'ï' then 'i'
  else if c = 'ô' ∨ c = 'ö' then 'o'
  else if c = 'ù' ∨ c = 'û' ∨ c = 'ü' then 'u'
  else if c = 'ç' then 'c'
  else if c = 'À' ∨ c = 'Â' ∨ c = 'Ä' then 'A'
  else if c = 'É' ∨ c = 'È' ∨ c = 'Ê' ∨ c = 'Ë' then 'E'
  else if c = 'Î' ∨ c = 'Ï' then 'I'
  else if c = 'Ô' ∨ c = 'Ö' then 'O'
  else if c = 'Ù' ∨ c = 'Û' ∨ c = 'Ü' then 'U'
  else if c = 'Ç' then 'C'
  else c

def pyLower (s : String) : String := ⟨s.data.map pyLowerChar⟩

/-- Model of `_strip_accents` from `thermomix_converter.py`. -/
def strip_accents (s : String) : String := ⟨s.data.map stripAccentChar⟩

/-- Python word character (`\w`), ASCII plus the Latin-1 letters of the
model. -/
def isWordChar (c : Char) : Bool :=
  ('a' ≤ c ∧ c ≤ 'z') || ('A' ≤ c ∧ c ≤ 'Z') || c.isDigit || c = '_' ||
    stripAccentChar c ≠ c

/-- Exact (case-sensitive) literal match at the head of a list. -/
def leadMatch : List Char → List Char → Bool
  | [], _ => true
  | _ :: _, [] => false
  | p :: ps, c :: cs => p == c && leadMatch ps cs

/-- Case-insensitive literal match at the head of a list; the pattern is
given in lowercase. -/
def ciLead : List Char → List Char → Bool
  | [], _ => true
  | _ :: _, [] => false
  | p :: ps, c :: cs => p == pyLowerChar c && leadMatch₀ ps cs
where leadMatch₀ : List Char → List Char → Bool
  | [], _ => true
  | _ :: _, [] => false
  | p :: ps, c :: cs => p == pyLowerChar c && leadMatch₀ ps cs

/-- Python's `needle in hay` substring test. -/
def seqContains (hay needle : List Char) : Bool :=
  match hay with
  | [] => leadMatch needle []
  | _ :: cs => leadMatch needle hay || seqContains cs needle

def strContains (hay needle : String) : Bool := seqContains hay.data needle.data

/-- Python `hay.find(needle)`: index of the first occurrence, `none` for -1. -/
def pyFindIdx (hay needle : List Char) : Option Nat :=
  match hay with
  | [] => if leadMatch needle [] then some 0 else none
  | _ :: cs =>
    if leadMatch needle hay then some 0
    else (pyFindIdx cs needle).map (· + 1)

/-- Python `str.strip()` (whitespace on both ends). -/
def pyStrip (s : String) : String :=
  ⟨((s.data.dropWhile isPySpace).reverse.dropWhile isPySpace).reverse⟩

def strStarts (s pre : String) : Bool := leadMatch pre.data s.data

/-- Python `sep.join(parts)`. -/
def pyJoin (sep : String) : List String → String
  | [] => ""
  | p :: ps => ps.foldl (fun a b => a ++ sep ++ b) p

/-- Driver for `re.sub` with a fixed replacement: scan left to right, on a
match (given as the matched length, always ≥ 1 for the patterns used here)
emit the replacement and resume after the match, otherwise copy one
character.  Fuel-based recursion (the fuel bounds the text length) keeps the
function kernel-reducible. -/
def pySubGo (m : List Char → Option Nat) (repl : List Char) : Nat → List Char → List Char
  | _, [] => []
  | 0, l => l
  | fuel + 1, c :: cs =>
    match m (c :: cs) with
    | some k => repl ++ pySubGo m repl fuel (cs.drop (k - 1))
    | none => c :: pySubGo m repl fuel cs

def pySub (m : List Char → Option Nat) (repl : List Char) (l : List Char) : List Char :=
  pySubGo m repl l.length l

/-- Whether the matcher fires at any position of the text. -/
def hasMatch (m : List Char → Option Nat) : List Char → Bool
  | [] => false
  | c :: cs => (m (c :: cs)).isSome || hasMatch m cs

/-- Driver for `re.search`: first position (leftmost) where the matcher
fires, returning its payload. -/
def scanFirst (m : List Char → Option α) : List Char → Option α
  | [] => m []
  | c :: cs =>
    match m (c :: cs) with
    | some r => some r
    | none => scanFirst m cs

/-- First `some` among candidates, in order (regex ordered alternation /
backtracking preference). -/
def firstHit (f : α → Option β) : List α → Option β
  | [] => none
  | x :: xs =>
    match f x with
    | some r => some r
    | none => firstHit f xs

def digitVal (c : Char) : Nat := c.toNat - '0'.toNat

def digitsToNat (l : List Char) : Nat := l.foldl (fun a c => a * 10 + digitVal c) 0

-- ---------------------------------------------------------------------------
-- Python number model: float() on the digit/period strings reachable from
-- the converter's regex captures, int() truncation, round() (banker's).
-- ---------------------------------------------------------------------------

/-- Python `float(s)` restricted to the strings reachable in this code base:
captures of `[\d.]+` and of `[\d/.,]+` after `','→'.'` replacement and
`'/'` splitting, i.e. strings of digits and periods.  Valid iff there is at
least one digit and at most one period; any other character raises
(`none`). The value is modelled as an exact rational. -/
def pyFloatQ (l : List Char) : Option ℚ :=
  if l ≠ [] ∧ l.all (fun c => c.isDigit || c = '.') ∧
      (l.filter (· = '.')).length ≤ 1 ∧ l.any Char.isDigit then
    let intPart := l.takeWhile Char.isDigit
    let rest := l.dropWhile Char.isDigit
    let fracPart := match rest with
      | '.' :: fs => fs
      | _ => []
    some (mkRat (digitsToNat intPart * 10 ^ fracPart.length + digitsToNat fracPart)
      (10 ^ fracPart.length))
  else none

/-- Exact rational division `a / b` (for `b ≠ 0`), written on numerators and
denominators so the kernel can evaluate it. -/
def ratDiv (a b : ℚ) : ℚ := Rat.divInt (a.num * (b.den : ℤ)) ((a.den : ℤ) * b.num)

/-- Python `int(q)` for a float: truncation toward zero. -/
def truncQ (q : ℚ) : ℤ := Int.tdiv q.num (q.den : ℤ)

/-- Python `round(q)`: round half to even.  `rem/den` is the fractional part
of `q` above its floor; the three integer comparisons are `frac < 1/2`,
`frac > 1/2` and the tie. -/
def roundHalfEvenQ (q : ℚ) : ℤ :=
  let f := q.floor
  let den : ℤ := (q.den : ℤ)
  let rem : ℤ := q.num - f * den
  if 2 * rem < den then f
  else if den < 2 * rem then f + 1
  else if f % 2 = 0 then f else f + 1

/-- The value `(q - whole) * 100` (used by `round(val - whole, 2)`), written
on numerators and denominators. -/
def subMul100 (q : ℚ) (whole : ℤ) : ℚ :=
  Rat.divInt ((q.num - whole * (q.den : ℤ)) * 100) ((q.den : ℤ))

/-- Model of the `:.2g` format for the two-decimal values `k/100` (`0 ≤ k ≤ 100`) that
`_normalize_quantity` formats: up to two significant digits, trailing zeros
stripped. -/
def fmt2g (k : ℤ) : String :=
  if k = 100 then "1"
  else if k % 10 = 0 then "0." ++ Int.repr (k / 10)
  else if k < 10 then "0.0" ++ Int.repr k
  else "0." ++ Int.repr (k / 10) ++ Int.repr (k % 10)

-- ---------------------------------------------------------------------------
-- constants.py
-- ---------------------------------------------------------------------------

/-- A keyword's parameter preset (the dict values of the keyword tables). -/
structure KwParams where
  speed : Option ℤ := none
  temp : Option ℤ := none
  duration : Option ℤ := none
  reverse : Bool := false
  varoma : Bool := false
deriving DecidableEq, Repr

def MIXING_KEYWORDS : List (String × KwParams) := [
  ("melanger", { speed := some 3, duration := some 30 }),
  ("mixer", { speed := some 8, duration := some 30 }),
  ("battre", { speed := some 4, duration := some 45 }),
  ("fouetter", { speed := some 4, duration := some 60 }),
  ("petrir", { speed := some 6, duration := some 120 }),
  ("hacher", { speed := some 5, duration := some 5 }),
  ("emincer", { speed := some 5, duration := some 5 }),
  ("pulveriser", { speed := some 10, duration := some 15 }),
  ("broyer", { speed := some 10, duration := some 30 }),
  ("raper", { speed := some 5, duration := some 10 }),
  ("concasser", { speed := some 5, duration := some 10 }),
  ("incorporer", { speed := some 3, duration := some 30, reverse := true }),
  ("remuer", { speed := some 1, duration := some 60, reverse := true }),
  ("touiller", { speed := some 1, duration := some 30, reverse := true }),
  ("mix", { speed := some 3, duration := some 30 }),
  ("blend", { speed := some 8, duration := some 30 }),
  ("beat", { speed := some 4, duration := some 45 }),
  ("whisk", { speed := some 4, duration := some 60 }),
  ("whip", { speed := some 4, duration := some 60 }),
  ("knead", { speed := some 6, duration := some 120 }),
  ("chop", { speed := some 5, duration := some 5 }),
  ("dice", { speed := some 5, duration := some 5 }),
  ("slice", { speed := some 5, duration := some 5 }),
  ("mince", { speed := some 5, duration := some 5 }),
  ("grind", { speed := some 10, duration := some 30 }),
  ("grate", { speed := some 5, duration := some 10 }),
  ("shred", { speed := some 5, duration := some 10 }),
  ("crush", { speed := some 5, duration := some 10 }),
  ("puree", { speed := some 8, duration := some 30 }),
  ("fold", { speed := some 3, duration := some 30, reverse := true }),
  ("combine", { speed := some 3, duration := some 30 }),
  ("stir", { speed := some 1, duration := some 60, reverse := true }),
  ("emulsify", { speed := some 4, duration := some 30 })]

def COOKING_KEYWORDS : List (String × KwParams) := [
  ("cuire", { speed := some 1, temp := some 100 }),
  ("mijoter", { speed := some 1, temp := some 90, reverse := true }),
  ("rissoler", { speed := some 1, temp := some 120 }),
  ("sauter", { speed := some 1, temp := some 120 }),
  ("saute", { speed := some 1, temp := some 120 }),
  ("revenir", { speed := some 1, temp := some 120, reverse := true }),
  ("faire revenir", { speed := some 1, temp := some 120, reverse := true }),
  ("dorer", { speed := some 1, temp := some 120, reverse := true }),
  ("fondre", { speed := some 1, temp := some 50 }),
  ("faire fondre", { speed := some 1, temp := some 50 }),
  ("chauffer", { speed := some 2, temp := some 90 }),
  ("rechauffer", { speed := some 2, temp := some 70 }),
  ("bouillir", { speed := some 1, temp := some 100 }),
  ("fremir", { speed := some 1, temp := some 90 }),
  ("porter a ebullition", { speed := some 1, temp := some 100 }),
  ("blanchir", { speed := some 1, temp := some 100 }),
  ("braiser", { speed := some 1, temp := some 100, reverse := true }),
  ("compoter", { speed := some 1, temp := some 90, reverse := true }),
  ("confire", { speed := some 1, temp := some 80, reverse := true }),
  ("carameliser", { speed := some 2, temp := some 120 }),
  ("vapeur", { speed := some 1, temp := some 100, varoma := true }),
  ("cook", { speed := some 1, temp := some 100 }),
  ("simmer", { speed := some 1, temp := some 90, reverse := true }),
  ("sear", { speed := some 1, temp := some 120 }),
  ("fry", { speed := some 1, temp := some 120 }),
  ("brown", { speed := some 1, temp := some 120, reverse := true }),
  ("melt", { speed := some 1, temp := some 50 }),
  ("heat", { speed := some 2, temp := some 90 }),
  ("warm", { speed := some 2, temp := some 70 }),
  ("reheat", { speed := some 2, temp := some 70 }),
  ("boil", { speed := some 1, temp := some 100 }),
  ("bring to a boil", { speed := some 1, temp := some 100 }),
  ("blanch", { speed := some 1, temp := some 100 }),
  ("braise", { speed := some 1, temp := some 100, reverse := true }),
  ("caramelize", { speed := some 2, temp := some 120 }),
  ("steam", { speed := some 1, temp := some 100, varoma := true }),
  ("roast", { speed := some 1, temp := some 120 }),
  ("reduce", { speed := some 1, temp := some 100 }),
  ("poach", { speed := some 1, temp := some 80 }),
  ("scald", { speed := some 1, temp := some 90 })]

/-- The set `TURBO_KEYWORDS` is a Python set; membership testing is order-free, so a
list is a faithful model. -/
def TURBO_KEYWORDS : List String :=
  ["mixer finement", "reduire en poudre", "glace pilee",
   "crush ice", "grind to powder", "finely blend"]

def UNIT_MAP : List (String × String) := [
  ("gramme", "g"), ("grammes", "g"),
  ("kilogramme", "kg"), ("kilogrammes", "kg"),
  ("litre", "l"), ("litres", "l"),
  ("tablespoon", "tbsp"), ("tablespoons", "tbsp"),
  ("teaspoon", "tsp"), ("teaspoons", "tsp"),
  ("ounce", "oz"), ("ounces", "oz"),
  ("pound", "lb"), ("pounds", "lb"), ("lbs", "lb"),
  ("cup", "cup"), ("cups", "cup")]

def FRACTION_MAP : List (String × String) := [
  ("0.25", "¼"), ("0.33", "⅓"), ("0.5", "½"), ("0.66", "⅔"), ("0.75", "¾")]

def TOOL_KEYWORDS : List (String × List String) := [
  ("Four", ["four", "enfourner", "oven", "bake", "baking", "prechauffer", "preheat"]),
  ("Varoma", ["varoma", "vapeur", "steam", "steaming"]),
  ("Fouet papillon", ["fouet papillon", "butterfly", "butterfly whisk",
    "monter en neige", "chantilly", "creme fouettee", "whipped cream",
    "stiff peaks", "soft peaks"]),
  ("Panier de cuisson", ["panier de cuisson", "steaming basket", "steam basket"])]

def lookupAssoc (m : List (String × α)) (k : String) : Option α :=
  match m with
  | [] => none
  | (k', v) :: rest => if k' = k then some v else lookupAssoc rest k

-- ---------------------------------------------------------------------------
-- models.py
-- ---------------------------------------------------------------------------

/-- Model of `Ingredient` (models.py).  `quantity_numeric`/`quantity_max` are Python
floats, modelled as exact rationals. -/
structure Ingredient where
  name : String
  quantity : Option String := none
  unit : Option String := none
  quantity_numeric : Option ℚ := none
  quantity_max : Option ℚ := none
deriving DecidableEq, Repr

/-- Model of `AnnotationPosition` (models.py). -/
structure AnnPosition where
  offset : Nat
  length : Nat
deriving DecidableEq, Repr

/-- Model of `TTSAnnotation` (models.py). -/
structure TTSAnn where
  position : AnnPosition
  speed : Option String := none
  time : Option ℤ := none
  temperature_value : Option String := none
  temperature_unit : String := "C"
deriving DecidableEq, Repr

/-- Model of `IngredientAnnotation` (models.py). -/
structure IngredientAnn where
  position : AnnPosition
  ingredient : Ingredient
deriving DecidableEq, Repr

/-- Model of `ThermomixStep` (models.py); `tts_anns`/`ingredient_anns` model the
`tts_annotations`/`ingredient_annotations` fields. -/
structure ThermomixStep where
  description : String
  duration_seconds : Option ℤ := none
  temperature : Option ℤ := none
  speed : Option ℤ := none
  reverse : Bool := false
  is_turbo : Bool := false
  is_varoma : Bool := false
  tts_anns : List TTSAnn := []
  ingredient_anns : List IngredientAnn := []
deriving DecidableEq, Repr

/-- Model of `ScrapedRecipe` (models.py). -/
structure ScrapedRecipe where
  title : String
  ingredients : List String := []
  instructions : List String := []
  total_time : Option ℤ := none
  prep_time : Option ℤ := none
  cook_time : Option ℤ := none
  servings : Option ℤ := none
  image_url : Option String := none
  source_url : String := ""
deriving DecidableEq, Repr

/-- Model of `ThermomixRecipe` (models.py). -/
structure ThermomixRecipe where
  name : String
  ingredients : List Ingredient := []
  steps : List ThermomixStep := []
  servings : ℤ := 4
  prep_time_minutes : ℤ := 30
  total_time_minutes : ℤ := 60
  hints : List String := []
  source_url : String := ""
  tools : List String := ["TM7"]
  locale : String := "fr"
deriving DecidableEq, Repr

/-- Python truthiness of an optional int (`None` and `0` are falsy). -/
def truthyInt : Option ℤ → Bool
  | none => false
  | some v => v ≠ 0

/-- Python `x or d` for an optional int (`None` and `0` fall back to `d`). -/
def pyOrInt (x : Option ℤ) (d : ℤ) : ℤ :=
  match x with
  | none => d
  | some v => if v = 0 then d else v

/-- Model of `Ingredient.to_text` (models.py). -/
def Ingredient.to_text (i : Ingredient) (locale : String := "fr") : String :=
  let name := match i.name.data with
    | [] => i.name
    | c :: cs => ⟨pyLowerChar c :: cs⟩
  match i.quantity, i.unit with
  | some q, some u =>
    if strStarts locale "fr" then
      let vowels := "aeiouyàâéèêëïîôùûüAEIOUY".data
      if name.data.head?.elim false (vowels.contains ·) then
        q ++ " " ++ u ++ " d" ++ String.singleton '\'' ++ name
      else
        q ++ " " ++ u ++ " de " ++ name
    else q ++ " " ++ u ++ " " ++ name
  | some q, none => q ++ " " ++ name
  | none, _ => name

/-- The duration clause appended to `details` by `tts_text` (models.py);
`divmod` floors, hence `fdiv`/`fmod`. -/
def ttsTimeDetails (s : ThermomixStep) : List String :=
  if truthyInt s.duration_seconds then
    let d := s.duration_seconds.getD 0
    let minutes := Int.fdiv d 60
    let secs := Int.fmod d 60
    if minutes > 0 then
      [Int.repr minutes ++ " min" ++
        (if secs ≠ 0 then " " ++ Int.repr secs ++ " sec" else "")]
    else [Int.repr secs ++ " sec"]
  else []

/-- The temperature clause appended to `details` by `tts_text` (models.py). -/
def ttsTempDetails (s : ThermomixStep) : List String :=
  if s.is_varoma then ["Varoma"]
  else if truthyInt s.temperature then [Int.repr (s.temperature.getD 0) ++ "°C"]
  else []

/-- The speed clause appended to `details` by `tts_text` (models.py). -/
def ttsSpeedDetails (s : ThermomixStep) (locale : String) : List String :=
  if s.is_turbo then ["Turbo"]
  else if truthyInt s.speed then
    [(if strStarts locale "fr" then "vitesse" else "speed") ++ " " ++
      Int.repr (s.speed.getD 0)]
  else []

/-- Model of `ThermomixStep.tts_text` (models.py): the rendered parameter suffix. -/
def ThermomixStep.tts_text (s : ThermomixStep) (locale : String := "fr") : Option String :=
  let details := ttsTimeDetails s ++ ttsTempDetails s ++ ttsSpeedDetails s locale
  if details ≠ [] then some (pyJoin "/" details) else none

/-- Model of `ThermomixStep.to_text` (models.py): description plus parameter suffix. -/
def ThermomixStep.to_text (s : ThermomixStep) (locale : String := "fr") : String :=
  match s.tts_text locale with
  | some tts => s.description ++ " " ++ tts
  | none => s.description

-- ---------------------------------------------------------------------------
-- thermomix_converter.py: hand-compiled regex matchers
-- ---------------------------------------------------------------------------

def dropWs (l : List Char) : List Char := l.dropWhile isPySpace

/-- Optional literal period (`\.?`). -/
def dropDot : List Char → List Char
  | '.' :: cs => cs
  | l => l

def apoChar : Char := Char.ofNat 39

/-- Matcher for `\d+\s*(?:sec|min|s)\s*/\s*` (the optional time clause of
`_TTS_TEXT_RE`, IGNORECASE): returns the remaining text after the clause. -/
def ttsTimeGroup (l : List Char) : Option (List Char) :=
  let ds := l.takeWhile Char.isDigit
  if ds = [] then none else
  let l₁ := dropWs (l.drop ds.length)
  firstHit (fun u =>
    if ciLead u l₁ then
      match dropWs (l₁.drop u.length) with
      | '/' :: l₃ => some (dropWs l₃)
      | _ => none
    else none) ["sec".data, "min".data, ['s']]

/-- Matcher for `\d+\s*°C\s*/\s*` (the optional temperature clause of `_TTS_TEXT_RE`,
IGNORECASE). -/
def ttsTempGroup (l : List Char) : Option (List Char) :=
  let ds := l.takeWhile Char.isDigit
  if ds = [] then none else
  let l₁ := dropWs (l.drop ds.length)
  if ciLead "°c".data l₁ then
    match dropWs (l₁.drop 2) with
    | '/' :: l₃ => some (dropWs l₃)
    | _ => none
  else none

/-- Matcher for `_TTS_TEXT_RE` at the head of `l`; returns the matched
length. -/
def ttsLen (l : List Char) : Option Nat :=
  let l₂ := dropWs (dropDot (dropWs l))
  let l₃ := (ttsTimeGroup l₂).getD l₂
  let l₄ := (ttsTempGroup l₃).getD l₃
  let afterWord : Option (List Char) :=
    if ciLead "vitesse".data l₄ then some (l₄.drop 7)
    else if ciLead "speed".data l₄ then some (l₄.drop 5)
    else none
  match afterWord with
  | none => none
  | some l₅ =>
    let l₆ := dropWs l₅
    let num := l₆.takeWhile (fun c => c.isDigit || c = '.')
    if num = [] then none
    else some (l.length - (dropWs (dropDot (dropWs (l₆.drop num.length)))).length)

/-- Search for `(?:speed|vitesse)\s*[\d.]+` somewhere inside a parenthesis span
(for `_OLD_TTS_RE`). -/
def oldTtsInner : List Char → Bool
  | [] => false
  | c :: cs =>
    (let l := c :: cs
     let after : Option (List Char) :=
       if ciLead "speed".data l then some (l.drop 5)
       else if ciLead "vitesse".data l then some (l.drop 7)
       else none
     match after with
     | some r => ((dropWs r).takeWhile (fun d => d.isDigit || d = '.')) ≠ []
     | none => false) ||
    oldTtsInner cs

/-- Matcher for `_OLD_TTS_RE`
(`\s*\([^)]*(?:speed|vitesse)\s*[\d.]+[^)]*\)\s*`, IGNORECASE). -/
def oldTtsLen (l : List Char) : Option Nat :=
  match dropWs l with
  | '(' :: rest =>
    let span := rest.takeWhile (· ≠ ')')
    match rest.drop span.length with
    | ')' :: tail =>
      if oldTtsInner span then some (l.length - (dropWs tail).length) else none
    | _ => none
  | _ => none

/-- Matcher for `(?:dans|au)\s+(?:le\s+)?thermomix` (IGNORECASE). -/
def thermoDansLen (l : List Char) : Option Nat :=
  let afterKw : Option (List Char) :=
    if ciLead "dans".data l then some (l.drop 4)
    else if ciLead "au".data l then some (l.drop 2)
    else none
  match afterKw with
  | none => none
  | some l₁ =>
    let ws := l₁.takeWhile isPySpace
    if ws = [] then none else
    let l₂ := l₁.drop ws.length
    let l₃ :=
      if ciLead "le".data l₂ then
        let l₂a := l₂.drop 2
        let ws₂ := l₂a.takeWhile isPySpace
        if ws₂ ≠ [] ∧ ciLead "thermomix".data (l₂a.drop ws₂.length) then
          l₂a.drop ws₂.length
        else l₂
      else l₂
    if ciLead "thermomix".data l₃ then some (l.length - (l₃.drop 9).length)
    else none

/-- Matcher for `du\s+thermomix` (IGNORECASE). -/
def thermoDuLen (l : List Char) : Option Nat :=
  if ciLead "du".data l then
    let l₁ := l.drop 2
    let ws := l₁.takeWhile isPySpace
    if ws = [] then none else
    if ciLead "thermomix".data (l₁.drop ws.length) then some (2 + ws.length + 9)
    else none
  else none

/-- Matcher for `\s+`. -/
def wsLen (l : List Char) : Option Nat :=
  let ws := l.takeWhile isPySpace
  if ws = [] then none else some ws.length

/-- Matcher for `\.\s*\.$` (anchored: the second period must end the
text). -/
def dotEndLen (l : List Char) : Option Nat :=
  match l with
  | '.' :: rest => if rest.dropWhile isPySpace = ['.'] then some l.length else none
  | _ => none

/-- Model of `_clean_description` (thermomix_converter.py). -/
def _clean_description (text : String) : String :=
  let t := pySub oldTtsLen " ".data text.data
  let t := pySub ttsLen " ".data t
  let t := pySub thermoDansLen "dans le bol".data t
  let t := pySub thermoDuLen [] t
  let t := (pyStrip ⟨pySub wsLen [' '] t⟩).data
  ⟨pySub dotEndLen ['.'] t⟩

/-- Capture of `(?:vitesse|speed)\s*([\d.]+)` (IGNORECASE) at the head of
`l`. -/
def speedCapture (l : List Char) : Option (List Char) :=
  let after : Option (List Char) :=
    if ciLead "vitesse".data l then some (l.drop 7)
    else if ciLead "speed".data l then some (l.drop 5)
    else none
  match after with
  | none => none
  | some l₁ =>
    let tok := (dropWs l₁).takeWhile (fun c => c.isDigit || c = '.')
    if tok = [] then none else some tok

/-- Model of `_parse_speed_from_text`: the captured token feeds `float()` with no
try/except, so an invalid capture raises. -/
def _parse_speed_from_text (text : String) : Except PyErr (Option ℤ) :=
  match scanFirst speedCapture text.data with
  | none => .ok none
  | some tok =>
    match pyFloatQ tok with
    | none => .error .valueError
    | some q => .ok (some (max 1 (roundHalfEvenQ q)))

/-- Capture of `(\d+)\s*(?:minutes?|min)` at the head of `l` (`l` is already
lowercased). -/
def minutesCapture (l : List Char) : Option Nat :=
  let ds := l.takeWhile Char.isDigit
  if ds = [] then none else
  if leadMatch "min".data (dropWs (l.drop ds.length)) then some (digitsToNat ds)
  else none

/-- Capture of `(\d+)\s*(?:secondes?|seconds?|sec|s\b)` at the head of `l`. -/
def secondsCapture (l : List Char) : Option Nat :=
  let ds := l.takeWhile Char.isDigit
  if ds = [] then none else
  let l₁ := dropWs (l.drop ds.length)
  if leadMatch "sec".data l₁ then some (digitsToNat ds)
  else
    match l₁ with
    | 's' :: rest =>
      if rest.head?.elim true (fun c => ¬ isWordChar c) then some (digitsToNat ds)
      else none
    | _ => none

/-- Capture of `(\d+)\s*(?:h(?:eures?|ours?)?)\s*(\d+)?` at the head of `l`;
an absent second group is 0, as in the source. -/
def hoursCapture (l : List Char) : Option (Nat × Nat) :=
  let ds := l.takeWhile Char.isDigit
  if ds = [] then none else
  match dropWs (l.drop ds.length) with
  | 'h' :: rest =>
    let rest₂ :=
      if leadMatch "eures".data rest then rest.drop 5
      else if leadMatch "eure".data rest then rest.drop 4
      else if leadMatch "ours".data rest then rest.drop 4
      else if leadMatch "our".data rest then rest.drop 3
      else rest
    some (digitsToNat ds, digitsToNat ((dropWs rest₂).takeWhile Char.isDigit))
  | _ => none

/-- Model of `_parse_duration_from_text` (thermomix_converter.py). -/
def _parse_duration_from_text (text : String) : Option ℤ :=
  let tl := (pyLower text).data
  match scanFirst minutesCapture tl with
  | some m => some ((m : ℤ) * 60)
  | none =>
  match scanFirst secondsCapture tl with
  | some s => some (s : ℤ)
  | none =>
  match scanFirst hoursCapture tl with
  | some (h, m) => some (((h : ℤ) * 60 + (m : ℤ)) * 60)
  | none => none

/-- Capture of `(\d+)\s*°\s*[Cc]?` at the head of `l` (no IGNORECASE flag;
the letter is optional so only digits and the degree sign decide). -/
def tempCapture (l : List Char) : Option Nat :=
  let ds := l.takeWhile Char.isDigit
  if ds = [] then none else
  match dropWs (l.drop ds.length) with
  | '°' :: _ => some (digitsToNat ds)
  | _ => none

/-- Model of `_parse_temperature_from_text` (thermomix_converter.py). -/
def _parse_temperature_from_text (text : String) : Option ℤ :=
  match scanFirst tempCapture text.data with
  | none => none
  | some t => if 37 ≤ t then some (min (t : ℤ) 120) else none

/-- Search for `\bvaroma\b` on the lowercased text, tracking the previous character for
the left word boundary. -/
def hasWordVaroma : Option Char → List Char → Bool
  | _, [] => false
  | prev, c :: cs =>
    (leadMatch "varoma".data (c :: cs) &&
      prev.elim true (fun p => ¬ isWordChar p) &&
      ((c :: cs).drop 6).head?.elim true (fun n => ¬ isWordChar n)) ||
    hasWordVaroma (some c) cs

/-- Model of `_is_varoma_temperature` (thermomix_converter.py). -/
def _is_varoma_temperature (text : String) : Bool :=
  hasWordVaroma none (pyLower text).data

-- ---------------------------------------------------------------------------
-- UNITS_PATTERN and the ingredient grammars
-- ---------------------------------------------------------------------------

/-- Candidate match lengths for a `bases?` alternative (plural first, as the
greedy optional tries the `s`). -/
def splural (base : List Char) (l : List Char) : List Nat :=
  (if ciLead (base ++ ['s']) l then [base.length + 1] else []) ++
  (if ciLead base l then [base.length] else [])

/-- Candidate match length for a fixed-text alternative. -/
def ufixed (base : List Char) (l : List Char) : List Nat :=
  if ciLead base l then [base.length] else []

/-- Matcher for `c\.\s*à\s*[sc]`. -/
def cDotLens (l : List Char) : List Nat :=
  if ciLead ['c', '.'] l then
    let l₁ := l.drop 2
    let ws₁ := l₁.takeWhile isPySpace
    let l₂ := l₁.drop ws₁.length
    if ciLead ['à'] l₂ then
      let l₃ := l₂.drop 1
      let ws₂ := l₃.takeWhile isPySpace
      match l₃.drop ws₂.length with
      | c :: _ =>
        if pyLowerChar c = 's' ∨ pyLowerChar c = 'c' then
          [2 + ws₁.length + 1 + ws₂.length + 1]
        else []
      | [] => []
    else []
  else []

/-- Matcher for `cuillère[s]?\s*à\s*\w+`: for each `s`-variant, every greedy `\w+` length
in descending order. -/
def cuillereLens (l : List Char) : List Nat :=
  let tryBase (base : List Char) : List Nat :=
    if ciLead base l then
      let l₁ := l.drop base.length
      let ws₁ := l₁.takeWhile isPySpace
      let l₂ := l₁.drop ws₁.length
      if ciLead ['à'] l₂ then
        let l₃ := l₂.drop 1
        let ws₂ := l₃.takeWhile isPySpace
        let ws := (l₃.drop ws₂.length).takeWhile isWordChar
        ((List.range ws.length).reverse.map (· + 1)).map
          (fun wl => base.length + ws₁.length + 1 + ws₂.length + wl)
      else []
    else []
  tryBase "cuillères".data ++ tryBase "cuillère".data

/-- Matcher for `l\b`. -/
def lWordLens (l : List Char) : List Nat :=
  match l with
  | c :: rest =>
    if pyLowerChar c = 'l' ∧ rest.head?.elim true (fun n => ¬ isWordChar n) then [1]
    else []
  | [] => []

/-- All candidate match lengths of `UNITS_PATTERN` at the head of `l`, in
the pattern's alternation (and per-alternative backtracking) order. -/
def unitLens (l : List Char) : List Nat :=
  splural "tablespoon".data l ++ ufixed "tbsp".data l ++
  splural "teaspoon".data l ++ ufixed "tsp".data l ++
  splural "cup".data l ++ splural "ounce".data l ++ ufixed "oz".data l ++
  splural "pound".data l ++ splural "lb".data l ++
  ufixed "pinch".data l ++ splural "slice".data l ++ splural "leave".data l ++
  splural "clove".data l ++ ufixed "bunch".data l ++ splural "sprig".data l ++
  splural "stick".data l ++ splural "can".data l ++ splural "piece".data l ++
  splural "gramme".data l ++ splural "kilogramme".data l ++
  splural "litre".data l ++ ufixed "kg".data l ++ ufixed "ml".data l ++
  ufixed "cl".data l ++ ufixed "g".data l ++
  cDotLens l ++ cuillereLens l ++ splural "pincée".data l ++
  splural "sachet".data l ++ splural "tranche".data l ++
  splural "feuille".data l ++ lWordLens l

def qtyChar (c : Char) : Bool := c.isDigit || c = '/' || c = '.' || c = ','

/-- First grammar of `parse_ingredient`:
`^(.+?)\s*[-–]\s*([\d/.,]+)\s*({UNITS_PATTERN})?\s*$` (IGNORECASE).
The lazy group is tried shortest-first; the quantity needs no backtracking
because the characters it would give back can start neither a unit nor the
end anchor. -/
def grammar1Match (l : List Char) : Option (String × String × Option String) :=
  firstHit (fun i =>
    let pre := l.take i
    if pre.any (· = '\n') then none else
    let l₁ := l.drop i
    match l₁.drop ((l₁.takeWhile isPySpace).length) with
    | c :: l₃ =>
      if c = '-' ∨ c = '–' then
        let l₄ := dropWs l₃
        let q := l₄.takeWhile qtyChar
        if q = [] then none else
        let l₅ := dropWs (l₄.drop q.length)
        firstHit (fun uc =>
          let l₆ := match uc with
            | some ul => dropWs (l₅.drop ul)
            | none => l₅
          if l₆ = [] then
            some (⟨pre⟩, ⟨q⟩, uc.map (fun ul => (⟨l₅.take ul⟩ : String)))
          else none)
          ((unitLens l₅).map some ++ [none])
      else none
    | [] => none)
    ((List.range l.length).map (· + 1))

/-- Connector `(?:de\s+|d[']|of\s+)?` of the second grammar: candidate
consumed lengths in alternation order, then the skip. -/
def connLens2 (l : List Char) : List Nat :=
  (if ciLead "de".data l then
    let ws := (l.drop 2).takeWhile isPySpace
    if ws ≠ [] then [2 + ws.length] else []
  else []) ++
  (if ciLead ['d', apoChar] l then [2] else []) ++
  (if ciLead "of".data l then
    let ws := (l.drop 2).takeWhile isPySpace
    if ws ≠ [] then [2 + ws.length] else []
  else [])

/-- Second grammar of `parse_ingredient`:
`^([\d/.,]+)\s*({UNITS_PATTERN})?\s*(?:de\s+|d[']|of\s+)?\s*(.+)$`
(IGNORECASE).  The quantity backtracks (greedy, longest first); the `\s*`
runs keep their maximal extent, which is exact because `parse_ingredient`
strips its input, so text never ends in whitespace. -/
def grammar2Match (l : List Char) : Option (String × Option String × String) :=
  let qmax := l.takeWhile qtyChar
  if qmax = [] then none else
  firstHit (fun qlen =>
    let l₁ := dropWs (l.drop qlen)
    firstHit (fun uc =>
      let (ustr, l₂) := match uc with
        | some ul => (some (⟨l₁.take ul⟩ : String), dropWs (l₁.drop ul))
        | none => ((none : Option String), l₁)
      firstHit (fun cc =>
        let l₃ := match cc with
          | some cl => dropWs (l₂.drop cl)
          | none => l₂
        if l₃ ≠ [] ∧ l₃.all (· ≠ '\n') then some (⟨l.take qlen⟩, ustr, (⟨l₃⟩ : String))
        else none)
        ((connLens2 l₂).map some ++ [none]))
      ((unitLens l₁).map some ++ [none]))
    ((List.range qmax.length).reverse.map (· + 1))

-- ---------------------------------------------------------------------------
-- unit/quantity normalization and parse_ingredient
-- ---------------------------------------------------------------------------

/-- Model of `_normalize_unit` (thermomix_converter.py). -/
def _normalize_unit (u : Option String) : Option String :=
  match u with
  | none => none
  | some s => some ((lookupAssoc UNIT_MAP (pyLower s)).getD s)

/-- Python `s.split("/")`. -/
def splitSlash : List Char → List (List Char)
  | [] => [[]]
  | c :: cs =>
    if c = '/' then [] :: splitSlash cs
    else
      match splitSlash cs with
      | h :: t => (c :: h) :: t
      | [] => [[c]]

/-- Model of `_parse_numeric_quantity` (thermomix_converter.py): `ValueError` and
`ZeroDivisionError` are caught and become `none`. -/
def _parse_numeric_quantity (raw : Option String) : Option ℚ :=
  match raw with
  | none => none
  | some r =>
    let cleaned := (pyStrip ⟨r.data.map (fun c => if c = ',' then '.' else c)⟩).data
    if cleaned.contains '/' then
      match splitSlash cleaned with
      | p₀ :: p₁ :: _ =>
        match pyFloatQ p₀, pyFloatQ p₁ with
        | some a, some b => if b = 0 then none else some (ratDiv a b)
        | _, _ => none
      | _ => none
    else pyFloatQ cleaned

/-- Model of `_normalize_quantity` (thermomix_converter.py).  `round(·, 2)` and the
`:.2g` format are modelled exactly on the rational value. -/
def _normalize_quantity (raw : Option String) : Option String :=
  match raw with
  | none => none
  | some q0 =>
    let qty := pyStrip q0
    match lookupAssoc FRACTION_MAP qty with
    | some g => some g
    | none =>
      match pyFloatQ (qty.data.map (fun c => if c = ',' then '.' else c)) with
      | none => some qty
      | some val =>
        let whole := truncQ val
        let k := roundHalfEvenQ (subMul100 val whole)
        match (if 0 < k then lookupAssoc FRACTION_MAP (fmt2g k) else none) with
        | some glyph =>
          if 0 < whole then some (Int.repr whole ++ " " ++ glyph) else some glyph
        | none => some qty

/-- Model of `parse_ingredient` (thermomix_converter.py). -/
def parse_ingredient (raw : String) : Ingredient :=
  let text := pyStrip raw
  match grammar1Match text.data with
  | some (g1, g2, g3) =>
    { name := pyStrip g1
      quantity := _normalize_quantity (some g2)
      unit := _normalize_unit g3
      quantity_numeric := _parse_numeric_quantity (some g2) }
  | none =>
    match grammar2Match text.data with
    | some (g1, g2, g3) =>
      { quantity := _normalize_quantity (some g1)
        unit := _normalize_unit g2
        name := pyStrip g3
        quantity_numeric := _parse_numeric_quantity (some g1) }
    | none => { name := text }

-- ---------------------------------------------------------------------------
-- quantity erasure, ingredient mentions, TTS annotation builder
-- ---------------------------------------------------------------------------

def qtyStartChar (c : Char) : Bool :=
  c.isDigit || c = '¼' || c = '½' || c = '¾' || c = '⅓' || c = '⅔'

def qtyBodyChar (c : Char) : Bool :=
  c.isDigit || c = '/' || c = '.' || c = ',' ||
  c = '¼' || c = '½' || c = '¾' || c = '⅓' || c = '⅔'

/-- Connector `(?:de\s+|d[']\s*)?` of the erasure pattern. -/
def connLensQ (l : List Char) : List Nat :=
  (if ciLead "de".data l then
    let ws := (l.drop 2).takeWhile isPySpace
    if ws ≠ [] then [2 + ws.length] else []
  else []) ++
  (if ciLead ['d', apoChar] l then [2 + ((l.drop 2).takeWhile isPySpace).length]
   else [])

/-- Matcher for the per-ingredient erasure pattern
`_QTY_START (?:UNITS_PATTERN)?\s*(?:de\s+|d[']\s*)? name` (IGNORECASE,
`name` escaped hence literal); `nameLower` is the lowercased name. -/
def eraseLen (nameLower : List Char) (l : List Char) : Option Nat :=
  match l with
  | [] => none
  | c :: rest =>
    if qtyStartChar c then
      let bodyMax := (rest.takeWhile qtyBodyChar).length
      firstHit (fun blen =>
        let l₁ := dropWs (rest.drop blen)
        firstHit (fun uc =>
          let l₂ := match uc with
            | some ul => dropWs (l₁.drop ul)
            | none => l₁
          firstHit (fun cc =>
            let l₃ := match cc with
              | some cl => l₂.drop cl
              | none => l₂
            if ciLead nameLower l₃ then
              some (l.length - (l₃.drop nameLower.length).length)
            else none)
            ((connLensQ l₂).map some ++ [none]))
          ((unitLens l₁).map some ++ [none]))
        ((List.range (bodyMax + 1)).reverse)
    else none

/-- Model of `_french_article` (thermomix_converter.py). -/
def _french_article (name : String) : String :=
  let low : String := match name.data with
    | [] => name
    | c :: cs => ⟨pyLowerChar c :: cs⟩
  match low.data with
  | c :: _ =>
    if ("aeiouyàâéèêëïîôùûüh".data).contains c then
      "l" ++ String.singleton apoChar ++ low
    else "le " ++ low
  | [] => "le " ++ low

/-- Stable insertion into a sorted list: `x` goes before the first `y` with
`le x y`, so elements that tie keep their original relative order. -/
def insertIn (le : α → α → Bool) (x : α) : List α → List α
  | [] => [x]
  | y :: ys => if le x y then x :: y :: ys else y :: insertIn le x ys

/-- Stable sort (insertion sort), modelling Python's stable `sorted`. -/
def stableSort (le : α → α → Bool) : List α → List α
  | [] => []
  | x :: xs => insertIn le x (stableSort le xs)

/-- Model of `_strip_ingredient_quantities` (thermomix_converter.py); `sorted` with
`key=len(name)` and `reverse=True` is stable on ties, modelled by a stable
sort on the length-descending order. -/
def _strip_ingredient_quantities (text : String) (ingredients : List Ingredient)
    (locale : String := "fr") : String :=
  let sorted_ings := stableSort (fun a b => b.name.length ≤ a.name.length) ingredients
  sorted_ings.foldl (fun t ing =>
    if ing.name = "" then t
    else
      let repl : String :=
        if strStarts locale "fr" then _french_article ing.name
        else
          match ing.name.data with
          | c :: cs => ⟨pyLowerChar c :: cs⟩
          | [] => ing.name
      ⟨pySub (eraseLen (pyLower ing.name).data) repl.data t.data⟩) text

/-- Model of `_find_ingredient_mentions` (thermomix_converter.py). -/
def _find_ingredient_mentions (step_text : String) (ingredients : List Ingredient) :
    List IngredientAnn :=
  let text_lower := (pyLower step_text).data
  ingredients.filterMap (fun ing =>
    match pyFindIdx text_lower (pyLower ing.name).data with
    | some idx =>
      some { position := { offset := idx, length := ing.name.length }
             ingredient := ing }
    | none => none)

/-- Model of `_build_tts_annotation_from_step` (thermomix_converter.py). -/
def _build_tts_ann_from_step (step : ThermomixStep) (locale : String := "fr") :
    Option TTSAnn :=
  match step.tts_text locale with
  | none => none
  | some tts_str =>
    if tts_str = "" then none
    else
      some { position := { offset := step.description.length + 1,
                           length := tts_str.length }
             speed :=
               if step.is_turbo then some "Turbo"
               else if truthyInt step.speed then
                 some (Int.repr (step.speed.getD 0))
               else none
             time := step.duration_seconds
             temperature_value :=
               if step.is_varoma then some "varoma"
               else if truthyInt step.temperature then
                 some (Int.repr (step.temperature.getD 0))
               else none }

-- ---------------------------------------------------------------------------
-- convert_step / _detect_tools / convert_recipe
-- ---------------------------------------------------------------------------

/-- Outcome of the keyword cascade (tiers 1–3 of `convert_step`, before the
explicit-value overrides). -/
structure CascadeOut where
  speed : Option ℤ
  temperature : Option ℤ
  duration : Option ℤ
  reverse : Bool
  is_turbo : Bool
  is_varoma : Bool
deriving DecidableEq, Repr

/-- The turbo-keyword check of `convert_step` (membership in a Python set:
order-free). -/
def turboHit (text_normalized : String) : Bool :=
  TURBO_KEYWORDS.any (fun kw => seqContains text_normalized.data kw.data)

/-- Tiers 1–3 of `convert_step`: turbo short-circuit, else first cooking
keyword, else first mixing keyword (the mixing tier runs only when no
cooking keyword matched, since every cooking preset sets a speed). -/
def cascadeParams (text_normalized : String) (is_varoma0 : Bool) : CascadeOut :=
  if turboHit text_normalized then
    { speed := none, temperature := none, duration := some 15,
      reverse := false, is_turbo := true, is_varoma := is_varoma0 }
  else
    match COOKING_KEYWORDS.find? (fun p => seqContains text_normalized.data p.1.data) with
    | some (_, params) =>
      { speed := some (params.speed.getD 1), temperature := params.temp,
        duration := params.duration, reverse := params.reverse,
        is_turbo := false, is_varoma := is_varoma0 || params.varoma }
    | none =>
      match MIXING_KEYWORDS.find? (fun p => seqContains text_normalized.data p.1.data) with
      | some (_, params) =>
        { speed := some (params.speed.getD 3), temperature := none,
          duration := some (params.duration.getD 30), reverse := params.reverse,
          is_turbo := false, is_varoma := is_varoma0 }
      | none =>
        { speed := none, temperature := none, duration := none,
          reverse := false, is_turbo := false, is_varoma := is_varoma0 }

/-- Truthiness override (`if v:`) used for the explicit temperature and duration values
(`None` and `0` do not override). -/
def overrideTruthy (base v : Option ℤ) : Option ℤ :=
  if truthyInt v then v else base

/-- The cascade of `convert_step` applied to a raw step text: keyword tiers
on the normalized (lowercased, accent-stripped) text, with the independent
Varoma-word check seeding `is_varoma`. -/
def cascadeOf (step_text : String) : CascadeOut :=
  cascadeParams (strip_accents (pyLower step_text)) (_is_varoma_temperature step_text)

/-- The tail of `convert_step`: build the TTS annotation from the assembled
step and attach it (`step.tts_annotations = [tts]` when one exists). -/
def attachTts (step : ThermomixStep) (locale : String) : ThermomixStep :=
  match _build_tts_ann_from_step step locale with
  | some tts => { step with tts_anns := [tts] }
  | none => step

/-- Model of `convert_step` given the already-parsed explicit speed (the speed parse
is the only fallible operation of the function and everything before it is
pure, so the error check is hoisted into `convert_stepE`). -/
def convert_step_core (step_text : String) (locale : String) (text_speed : Option ℤ) :
    ThermomixStep :=
  let cas := cascadeOf step_text
  let temperature :=
    if cas.is_varoma then cas.temperature
    else overrideTruthy cas.temperature (_parse_temperature_from_text step_text)
  let duration := overrideTruthy cas.duration (_parse_duration_from_text step_text)
  let speed := match text_speed with
    | some v => some v
    | none => cas.speed
  attachTts
    { description := _clean_description step_text
      duration_seconds := duration
      temperature := temperature
      speed := speed
      reverse := cas.reverse
      is_turbo := cas.is_turbo
      is_varoma := cas.is_varoma } locale

/-- Model of `convert_step` (thermomix_converter.py); `.error` models an uncaught
exception escaping the call. -/
def convert_stepE (step_text : String) (locale : String := "fr") :
    Except PyErr ThermomixStep :=
  match _parse_speed_from_text step_text with
  | .error e => .error e
  | .ok sp => .ok (convert_step_core step_text locale sp)

/-- Model of `_detect_tools` (thermomix_converter.py). -/
def _detect_tools (instructions : List String) : List String :=
  let text := (strip_accents (pyLower (pyJoin " " instructions))).data
  TOOL_KEYWORDS.foldl (fun tools p =>
    if p.2.any (fun kw => seqContains text kw.data) then tools ++ [p.1] else tools)
    ["TM7"]

/-- The second pass of `convert_recipe` over one step: quantity erasure on
the description, then ingredient-mention annotations against the re-rendered
step text. -/
def postStep (ingredients : List Ingredient) (locale : String) (step : ThermomixStep) :
    ThermomixStep :=
  let step := { step with
    description := _strip_ingredient_quantities step.description ingredients locale }
  { step with ingredient_anns := _find_ingredient_mentions (step.to_text locale) ingredients }

/-- Model of `convert_recipe` (thermomix_converter.py). -/
def convert_recipeE (scraped : ScrapedRecipe) (locale : String := "fr") :
    Except PyErr ThermomixRecipe :=
  let ingredients := scraped.ingredients.map parse_ingredient
  match scraped.instructions.mapM (fun s => convert_stepE s locale) with
  | .error e => .error e
  | .ok steps0 =>
    let steps := steps0.map (postStep ingredients locale)
    .ok { name := scraped.title
          ingredients := ingredients
          steps := steps
          servings := pyOrInt scraped.servings 4
          prep_time_minutes := pyOrInt scraped.prep_time 15
          total_time_minutes := pyOrInt scraped.total_time 45
          hints := if scraped.source_url ≠ "" then
              ["Original recipe: " ++ scraped.source_url] else []
          tools := _detect_tools scraped.instructions
          source_url := scraped.source_url
          locale := locale }

-- ---------------------------------------------------------------------------
-- Cookidoo payload (models.py)
-- ---------------------------------------------------------------------------

structure YieldInfo where
  value : ℤ
  unitText : String
deriving DecidableEq, Repr

/-- Payload of one Cookidoo annotation dict, discriminated by its type. -/
inductive CookidooAnnData where
  | ingredientData (text : String)
  | ttsData (speed : Option String) (time : Option ℤ)
      (temperature : Option (String × String))
deriving DecidableEq, Repr

structure CookidooAnn where
  type : String
  position : AnnPosition
  data : CookidooAnnData
deriving DecidableEq, Repr

/-- Model of `TTSAnnotation.to_cookidoo_annotation` (models.py). -/
def TTSAnn.to_cookidoo_ann (a : TTSAnn) : CookidooAnn :=
  { type := "TTS", position := a.position,
    data := .ttsData a.speed a.time
      (a.temperature_value.map (fun v => (v, a.temperature_unit))) }

/-- Model of `IngredientAnnotation.to_cookidoo_annotation` (models.py). -/
def IngredientAnn.to_cookidoo_ann (a : IngredientAnn) (locale : String := "fr") :
    CookidooAnn :=
  { type := "INGREDIENT", position := a.position,
    data := .ingredientData (a.ingredient.to_text locale) }

/-- Model of `ThermomixStep.build_annotations` (models.py): ingredient annotations
first, then TTS annotations. -/
def ThermomixStep.build_anns (s : ThermomixStep) (locale : String := "fr") :
    List CookidooAnn :=
  s.ingredient_anns.map (fun i => i.to_cookidoo_ann locale) ++
  s.tts_anns.map (fun t => t.to_cookidoo_ann)

structure CookidooStepEntry where
  type : String
  text : String
  anns : List CookidooAnn
  missedUsages : List String
deriving DecidableEq, Repr

structure CookidooIngredientEntry where
  type : String
  text : String
deriving DecidableEq, Repr

structure CookidooPayload where
  name : String
  image : Option String
  tools : List String
  yieldInfo : YieldInfo
  prepTime : ℤ
  cookTime : ℤ
  totalTime : ℤ
  ingredients : List CookidooIngredientEntry
  instructions : List CookidooStepEntry
  hints : String
  workStatus : String
  requiresAnnsCheck : Bool
deriving DecidableEq, Repr

/-- Model of `ThermomixRecipe.to_cookidoo_payload` (models.py).  The source derives
every formatting decision from `self.locale`; its `locale` parameter is
accepted but unused, exactly as in the code. -/
def ThermomixRecipe.to_cookidoo_payload (r : ThermomixRecipe)
    (_locale : String := "fr-FR") : CookidooPayload :=
  let lang := r.locale
  { name := r.name
    image := none
    tools := r.tools
    yieldInfo := { value := r.servings,
                   unitText := if strStarts lang "fr" then "portion" else "serving" }
    prepTime := r.prep_time_minutes * 60
    cookTime := 0
    totalTime := r.total_time_minutes * 60
    ingredients := r.ingredients.map (fun i =>
      { type := "INGREDIENT", text := i.to_text lang })
    instructions := r.steps.map (fun s =>
      { type := "STEP", text := s.to_text lang, anns := s.build_anns lang,
        missedUsages := [] })
    hints := if r.hints ≠ [] then pyJoin "\n" r.hints else ""
    workStatus := "PRIVATE"
    requiresAnnsCheck := false }

-- ---------------------------------------------------------------------------
-- Concrete inputs and decidable side conditions used by the theorems
-- ---------------------------------------------------------------------------

/-- A scraped recipe whose single step mentions an ingredient quantity, so
quantity erasure shortens the description after the TTS annotation was
built. -/
def c1Scraped : ScrapedRecipe :=
  { title := "Salade", ingredients := ["Boulgour - 200"],
    instructions := ["Ajouter 200 g de boulgour et cuire"] }

/-- Whitespace already collapsed: every whitespace character is a single
space not followed by more whitespace. -/
def wsRunsOk : List Char → Bool
  | [] => true
  | [c] => !isPySpace c || c = ' '
  | c :: d :: rest => (!isPySpace c || (c = ' ' && !isPySpace d)) && wsRunsOk (d :: rest)

/-- The whitespace-normalization pass of `_clean_description` fixes the
text: collapsed runs and no whitespace at either end. -/
def wsCanon (l : List Char) : Bool :=
  (match l.head? with | none => true | some c => !isPySpace c) &&
  (match l.getLast? with | none => true | some c => !isPySpace c) &&
  wsRunsOk l

/-- Already-clean text: none of the cleaner's removal/rewrite patterns
finds a match, whitespace is already collapsed and stripped, and the text
does not end in two (possibly space-separated) periods. -/
def alreadyCleanText (t : String) : Bool :=
  !hasMatch oldTtsLen t.data && !hasMatch ttsLen t.data &&
  !hasMatch thermoDansLen t.data && !hasMatch thermoDuLen t.data &&
  wsCanon t.data && !hasMatch dotEndLen t.data

/-- A step holding both flags and both numeric values, exercising the
mutual-exclusion invariant of the rendering. -/
def c8Step : ThermomixStep :=
  { description := "x", duration_seconds := some 90, temperature := some 100,
    speed := some 3, is_turbo := true, is_varoma := true }

def DIGITS : List Char := ['0', '1', '2', '3', '4', '5', '6', '7', '8', '9']

/-- Whether a tool table entry is triggered by the given instructions
(exactly the test `_detect_tools` performs). -/
def toolTriggered (instructions : List String) (p : String × List String) : Bool :=
  p.2.any (fun kw =>
    seqContains (strip_accents (pyLower (pyJoin " " instructions))).data kw.data)

-- ---------------------------------------------------------------------------
-- Claim theorems
-- ---------------------------------------------------------------------------

set_option maxRecDepth 8000 in
/-- C1: the claim says the TTS annotation offset is computed against the
final (quantity-erased) description — `offset = len(final description) + 1`
and `offset + length = len(rendered text)`.  On `c1Scraped` the code builds
the annotation before erasure shortens the description: the offset stays 35
(pre-erasure description 34 + 1) while the final description has length 28,
so the claimed offset would be 29 and the rendered text has length 44 ≠
35 + 15.  This evaluation exhibits the divergence. -/
theorem c1_tts_offset_stale_bug :
    (convert_recipeE c1Scraped "fr").toOption.map (fun r =>
      r.steps.map (fun st =>
        (st.tts_anns.map (fun a => (a.position.offset, a.position.length)),
         st.description.length + 1, (st.to_text "fr").length))) =
      some [([(35, 15)], 29, 44)] ∧
    decide (35 = 29) = false ∧ decide (35 + 15 = 44) = false :=
  ⟨by decide, rfl, rfl⟩

/-- C2: the claim says `convert_step` is total.  On `"vitesse ."` the speed
regex captures `"."`, which `float()` rejects, and
`_parse_speed_from_text` has no try/except: the exception escapes
`convert_step`. -/
theorem c2_convert_step_total_bug :
    convert_stepE "vitesse ." "fr" = Except.error PyErr.valueError ∧
    _parse_speed_from_text "vitesse ." = Except.error PyErr.valueError :=
  ⟨rfl, rfl⟩

/-- C3: the conversion pipeline is a pure function of the scraped record and
the locale, so structurally identical inputs give structurally identical
outputs (field-for-field, by equality of the whole recipe value). -/
theorem c3_convert_recipe_deterministic (s₁ s₂ : ScrapedRecipe) (l₁ l₂ : String)
    (hs : s₁ = s₂) (hl : l₁ = l₂) :
    convert_recipeE s₁ l₁ = convert_recipeE s₂ l₂ := by
  subst hs hl; rfl

/-- Witness for C3 at a concrete recipe. -/
theorem c3_witness :
    c1Scraped = c1Scraped ∧
    convert_recipeE c1Scraped "fr" = convert_recipeE c1Scraped "fr" :=
  ⟨rfl, c3_convert_recipe_deterministic c1Scraped c1Scraped "fr" "fr" rfl rfl⟩

set_option maxRecDepth 4000 in
/-- C7: `parse_ingredient` on `"200 g de farine"` and `"Oignon - 1"` yields
exactly the claimed fields, and any line matched by neither positional
grammar falls back to the whole trimmed text as the name with no quantity
and no unit. -/
theorem c7_parse_ingredient_cases :
    parse_ingredient "200 g de farine" =
      { name := "farine", quantity := some "200", unit := some "g",
        quantity_numeric := some 200 } ∧
    parse_ingredient "Oignon - 1" =
      { name := "Oignon", quantity := some "1", unit := none,
        quantity_numeric := some 1 } ∧
    ∀ raw : String, grammar1Match (pyStrip raw).data = none →
      grammar2Match (pyStrip raw).data = none →
      parse_ingredient raw = { name := pyStrip raw } := by
  refine ⟨by decide, by decide, ?_⟩
  intro raw h1 h2
  simp only [parse_ingredient, h1, h2]

/-- Witness for C7's fallback clause at a concrete unparseable line. -/
theorem c7_witness :
    grammar1Match (pyStrip "sel fin").data = none ∧
    grammar2Match (pyStrip "sel fin").data = none ∧
    parse_ingredient "sel fin" = { name := "sel fin" } :=
  ⟨rfl, rfl, c7_parse_ingredient_cases.2.2 "sel fin" rfl rfl⟩

/-- C10: the published payload's `cookTime` is the constant 0, `prepTime`
and `totalTime` are the recipe's minute fields times 60, the scraped
`cook_time` has no influence on the conversion output, and the conversion
carries `prep_time`/`total_time` through (with the 15/45-minute defaults
when absent or zero). -/
theorem c10_cooktime_and_time_fields :
    (∀ (r : ThermomixRecipe) (loc : String),
      (r.to_cookidoo_payload loc).cookTime = 0 ∧
      (r.to_cookidoo_payload loc).prepTime = r.prep_time_minutes * 60 ∧
      (r.to_cookidoo_payload loc).totalTime = r.total_time_minutes * 60) ∧
    (∀ (s : ScrapedRecipe) (c : Option ℤ) (l : String),
      convert_recipeE { s with cook_time := c } l = convert_recipeE s l) ∧
    (∀ (s : ScrapedRecipe) (l : String) (r : ThermomixRecipe),
      convert_recipeE s l = Except.ok r →
      r.prep_time_minutes = pyOrInt s.prep_time 15 ∧
      r.total_time_minutes = pyOrInt s.total_time 45) := by
  refine ⟨fun r loc => ⟨rfl, rfl, rfl⟩, fun s c l => by cases s; rfl, ?_⟩
  intro s l r h
  unfold convert_recipeE at h
  cases hm : s.instructions.mapM (fun st => convert_stepE st l) with
  | error e => rw [hm] at h; cases h
  | ok steps0 =>
    rw [hm] at h
    cases h
    exact ⟨rfl, rfl⟩

set_option maxRecDepth 8000 in
/-- Witness for C10 at a concrete recipe and cook-time perturbation. -/
theorem c10_witness :
    (ThermomixRecipe.to_cookidoo_payload { name := "x" } "fr-FR").cookTime = 0 ∧
    convert_recipeE { c1Scraped with cook_time := some 99 } "fr" =
      convert_recipeE c1Scraped "fr" ∧
    ∃ r, convert_recipeE c1Scraped "fr" = Except.ok r ∧
      r.prep_time_minutes = pyOrInt c1Scraped.prep_time 15 ∧
      r.total_time_minutes = pyOrInt c1Scraped.total_time 45 :=
  ⟨(c10_cooktime_and_time_fields.1 _ _).1,
   c10_cooktime_and_time_fields.2.1 c1Scraped (some 99) "fr",
   ⟨_, rfl, c10_cooktime_and_time_fields.2.2 c1Scraped "fr" _ rfl⟩⟩

/-- Lemma: `attachTts` only attaches annotations; the cooking-parameter fields of
the step are unchanged. -/
theorem attachTts_fields (s : ThermomixStep) (l : String) :
    (attachTts s l).temperature = s.temperature ∧
    (attachTts s l).duration_seconds = s.duration_seconds ∧
    (attachTts s l).speed = s.speed ∧
    (attachTts s l).reverse = s.reverse ∧
    (attachTts s l).is_turbo = s.is_turbo ∧
    (attachTts s l).is_varoma = s.is_varoma := by
  refine ⟨?_, ?_, ?_, ?_, ?_, ?_⟩ <;> (unfold attachTts; split <;> rfl)

/-- The parameter fields of `convert_step` in terms of the cascade and the
explicit-value overrides, exactly as the source computes them. -/
theorem convert_step_core_fields (t l : String) (sp : Option ℤ) :
    (convert_step_core t l sp).temperature =
      (if (cascadeOf t).is_varoma then (cascadeOf t).temperature
       else overrideTruthy (cascadeOf t).temperature (_parse_temperature_from_text t)) ∧
    (convert_step_core t l sp).duration_seconds =
      overrideTruthy (cascadeOf t).duration (_parse_duration_from_text t) ∧
    (convert_step_core t l sp).speed =
      (if sp.isSome then sp else (cascadeOf t).speed) ∧
    (convert_step_core t l sp).reverse = (cascadeOf t).reverse ∧
    (convert_step_core t l sp).is_turbo = (cascadeOf t).is_turbo ∧
    (convert_step_core t l sp).is_varoma = (cascadeOf t).is_varoma :=
  ⟨(attachTts_fields _ _).1, (attachTts_fields _ _).2.1,
   by cases sp <;> simpa using (attachTts_fields _ _).2.2.1,
   (attachTts_fields _ _).2.2.2.1,
   (attachTts_fields _ _).2.2.2.2.1, (attachTts_fields _ _).2.2.2.2.2⟩

/-- An extracted temperature is at least 37, hence truthy: the override
keeps exactly the extraction result when the base is `none`. -/
theorem overrideTruthy_none_parseTemp (t : String) :
    overrideTruthy none (_parse_temperature_from_text t) =
      _parse_temperature_from_text t := by
  unfold _parse_temperature_from_text overrideTruthy truthyInt
  cases h : scanFirst tempCapture t.data with
  | none => simp
  | some v =>
    by_cases hv : 37 ≤ v
    · have h37 : (37 : ℤ) ≤ min (v : ℤ) 120 :=
        le_min (by exact_mod_cast hv) (by norm_num)
      simp only [hv, if_true]
      have : min (v : ℤ) 120 ≠ 0 := by omega
      simp [this]
    · simp [hv]

/-- C4 counterexample: a step text that contains the mentions "180°C" and
"10 minutes", yet `convert_step` resolves temperature 40 and duration 300
seconds, because the leftmost regex matches ("40°", "5 min") win. -/
theorem c4_counterexample :
    strContains "chauffer 5 min puis 10 minutes a 40° puis 180°C" "180°C" = true ∧
    strContains "chauffer 5 min puis 10 minutes a 40° puis 180°C" "10 minutes" = true ∧
    (convert_stepE "chauffer 5 min puis 10 minutes a 40° puis 180°C" "fr").toOption.map
      (fun st => (st.temperature, st.duration_seconds)) = some (some 40, some 300) ∧
    decide ((some (40 : ℤ), some (300 : ℤ)) = (some 120, some 600)) = false :=
  ⟨by decide, by decide, by decide, rfl⟩

/-- C4 (amended): when the *first* temperature-regex match of the text
captures 180, the *first* duration-regex (minutes) match captures 10, and
the step is not in Varoma mode, `convert_step` resolves temperature 120
(clamped) and duration 600 seconds, overriding the keyword-table values for
those two fields only — speed and reverse keep their cascade results; and
a first captured temperature below 37 yields no temperature from that
mention. -/
theorem c4_explicit_overrides :
    (∀ (t l : String) (sp : Option ℤ),
      _parse_speed_from_text t = Except.ok sp →
      scanFirst tempCapture t.data = some 180 →
      scanFirst minutesCapture (pyLower t).data = some 10 →
      (cascadeOf t).is_varoma = false →
      ∃ st, convert_stepE t l = Except.ok st ∧
        st.temperature = some 120 ∧
        st.duration_seconds = some 600 ∧
        st.speed = (if sp.isSome then sp else (cascadeOf t).speed) ∧
        st.reverse = (cascadeOf t).reverse) ∧
    (∀ (t : String) (k : Nat),
      scanFirst tempCapture t.data = some k → k < 37 →
      _parse_temperature_from_text t = none) := by
  constructor
  · intro t l sp hsp htemp hdur hvar
    have hpt : _parse_temperature_from_text t = some 120 := by
      unfold _parse_temperature_from_text
      rw [htemp]
      norm_num
    have hpd : _parse_duration_from_text t = some 600 := by
      unfold _parse_duration_from_text
      simp only [hdur]
      norm_num
    refine ⟨convert_step_core t l sp, ?_, ?_, ?_,
      (convert_step_core_fields t l sp).2.2.1, (convert_step_core_fields t l sp).2.2.2.1⟩
    · unfold convert_stepE
      rw [hsp]
    · rw [(convert_step_core_fields t l sp).1, hvar]
      simp [hpt, overrideTruthy, truthyInt]
    · rw [(convert_step_core_fields t l sp).2.1, hpd]
      simp [overrideTruthy, truthyInt]
  · intro t k htemp hk
    unfold _parse_temperature_from_text
    simp only [htemp]
    rw [if_neg (by omega)]

/-- Witness for C4 at concrete step texts: the override at
"cuire 10 minutes à 180°C", and the below-37 discard at
"chauffer a 20°C" (first capture 20). -/
theorem c4_witness :
    _parse_speed_from_text "cuire 10 minutes à 180°C" = Except.ok none ∧
    scanFirst tempCapture ("cuire 10 minutes à 180°C").data = some 180 ∧
    scanFirst minutesCapture (pyLower "cuire 10 minutes à 180°C").data = some 10 ∧
    (cascadeOf "cuire 10 minutes à 180°C").is_varoma = false ∧
    (∃ st, convert_stepE "cuire 10 minutes à 180°C" "fr" = Except.ok st ∧
      st.temperature = some 120 ∧
      st.duration_seconds = some 600 ∧
      st.speed = (if (none : Option ℤ).isSome then (none : Option ℤ)
        else (cascadeOf "cuire 10 minutes à 180°C").speed) ∧
      st.reverse = (cascadeOf "cuire 10 minutes à 180°C").reverse) ∧
    scanFirst tempCapture ("chauffer a 20°C").data = some 20 ∧
    (20 : Nat) < 37 ∧
    _parse_temperature_from_text "chauffer a 20°C" = none :=
  ⟨rfl, rfl, rfl, by decide,
   c4_explicit_overrides.1 "cuire 10 minutes à 180°C" "fr" none rfl rfl rfl (by decide),
   rfl, by decide,
   c4_explicit_overrides.2 "chauffer a 20°C" 20 rfl (by decide)⟩

/-- C5 counterexample: a step text containing a turbo keyword *and* an
explicit duration mention — the explicit override leaves 120 seconds, not
the claimed fixed 15. -/
theorem c5_counterexample :
    turboHit (strip_accents (pyLower "mixer finement 2 minutes")) = true ∧
    (convert_stepE "mixer finement 2 minutes" "fr").toOption.map
      (fun st => (st.is_turbo, st.duration_seconds)) = some (true, some 120) ∧
    decide (some (120 : ℤ) = some 15) = false :=
  ⟨by decide, by decide, rfl⟩

/-- The cascade under a turbo hit: short-circuit with duration 15 and no
speed/temperature from the keyword tables. -/
theorem cascadeParams_turbo (n : String) (v : Bool) (h : turboHit n = true) :
    cascadeParams n v =
      { speed := none, temperature := none, duration := some 15,
        reverse := false, is_turbo := true, is_varoma := v } := by
  simp [cascadeParams, h]

/-- C5 (amended): a turbo-trigger substring of the normalized text sets
`is_turbo` and skips the keyword tiers — speed is whatever the explicit
speed regex yields, temperature is only the explicit extraction (suppressed
under Varoma), and the duration is 15 unless an explicit nonzero duration
in the text overrides it. -/
theorem c5_turbo_amended (t l : String) (sp : Option ℤ)
    (hturbo : turboHit (strip_accents (pyLower t)) = true)
    (hsp : _parse_speed_from_text t = Except.ok sp) :
    ∃ st, convert_stepE t l = Except.ok st ∧
      st.is_turbo = true ∧
      st.speed = sp ∧
      st.duration_seconds =
        (match _parse_duration_from_text t with
         | some d => if d = 0 then some 15 else some d
         | none => some 15) ∧
      st.temperature =
        (if _is_varoma_temperature t then none else _parse_temperature_from_text t) := by
  have hcas : cascadeOf t =
      { speed := none, temperature := none, duration := some 15,
        reverse := false, is_turbo := true,
        is_varoma := _is_varoma_temperature t } := by
    unfold cascadeOf
    exact cascadeParams_turbo _ _ hturbo
  refine ⟨convert_step_core t l sp, ?_, ?_, ?_, ?_, ?_⟩
  · unfold convert_stepE
    rw [hsp]
  · rw [(convert_step_core_fields t l sp).2.2.2.2.1, hcas]
  · rw [(convert_step_core_fields t l sp).2.2.1, hcas]
    cases sp <;> rfl
  · rw [(convert_step_core_fields t l sp).2.1, hcas]
    cases h : _parse_duration_from_text t with
    | none => simp [overrideTruthy, truthyInt]
    | some d =>
      by_cases hd : d = 0 <;> simp [overrideTruthy, truthyInt, hd]
  · rw [(convert_step_core_fields t l sp).1, hcas]
    by_cases hv : _is_varoma_temperature t <;>
      simp [hv, overrideTruthy_none_parseTemp]

/-- Witness for C5 at a concrete turbo step text. -/
theorem c5_witness :
    turboHit (strip_accents (pyLower "mixer finement")) = true ∧
    _parse_speed_from_text "mixer finement" = Except.ok none ∧
    ∃ st, convert_stepE "mixer finement" "fr" = Except.ok st ∧
      st.is_turbo = true ∧
      st.speed = none ∧
      st.duration_seconds =
        (match _parse_duration_from_text "mixer finement" with
         | some d => if d = 0 then some 15 else some d
         | none => some 15) ∧
      st.temperature =
        (if _is_varoma_temperature "mixer finement" then none
         else _parse_temperature_from_text "mixer finement") :=
  ⟨rfl, rfl, c5_turbo_amended "mixer finement" "fr" none rfl rfl⟩

/-- The tool-detection fold, rewritten as a filter over the table. -/
theorem detect_fold (table : List (String × List String))
    (pred : String × List String → Bool) (acc : List String) :
    table.foldl (fun tools p => if pred p then tools ++ [p.1] else tools) acc =
      acc ++ (table.filter pred).map Prod.fst := by
  induction table generalizing acc with
  | nil => simp
  | cons hd tl ih =>
    simp only [List.foldl_cons, List.filter_cons]
    cases hp : pred hd <;> simp [ih, hp]

/-- C9: tool detection always starts with the fixed base appliance "TM7",
lists exactly the triggered labels once each in table order (no
duplicates), and an instruction set triggering exactly the oven and steam
entries yields `["TM7", "Four", "Varoma"]`. -/
theorem c9_detect_tools (instructions : List String) :
    _detect_tools instructions =
      "TM7" :: (TOOL_KEYWORDS.filter (toolTriggered instructions)).map Prod.fst ∧
    (_detect_tools instructions).Nodup ∧
    (TOOL_KEYWORDS.map (toolTriggered instructions) = [true, true, false, false] →
      _detect_tools instructions = ["TM7", "Four", "Varoma"]) := by
  have h1 : _detect_tools instructions =
      "TM7" :: (TOOL_KEYWORDS.filter (toolTriggered instructions)).map Prod.fst := by
    unfold _detect_tools
    exact detect_fold _ _ _
  refine ⟨h1, ?_, ?_⟩
  · rw [h1]
    have hsub : ((TOOL_KEYWORDS.filter (toolTriggered instructions)).map Prod.fst).Sublist
        (TOOL_KEYWORDS.map Prod.fst) := (List.filter_sublist _).map _
    refine List.nodup_cons.mpr ⟨fun hmem => ?_, hsub.nodup (by decide)⟩
    have hx := hsub.subset hmem
    revert hx
    decide
  · intro hmap
    obtain ⟨ha, hb, hc, hd⟩ : toolTriggered instructions ("Four",
        ["four", "enfourner", "oven", "bake", "baking", "prechauffer", "preheat"]) = true ∧
        toolTriggered instructions ("Varoma", ["varoma", "vapeur", "steam", "steaming"]) = true ∧
        toolTriggered instructions ("Fouet papillon", ["fouet papillon", "butterfly",
          "butterfly whisk", "monter en neige", "chantilly", "creme fouettee",
          "whipped cream", "stiff peaks", "soft peaks"]) = false ∧
        toolTriggered instructions ("Panier de cuisson",
          ["panier de cuisson", "steaming basket", "steam basket"]) = false := by
      simpa [TOOL_KEYWORDS] using hmap
    rw [h1]
    simp [TOOL_KEYWORDS, List.filter_cons, ha, hb, hc, hd]

/-- Witness for C9 at concrete oven-plus-steam instructions. -/
theorem c9_witness :
    TOOL_KEYWORDS.map (toolTriggered ["enfourner", "cuire vapeur"]) =
      [true, true, false, false] ∧
    _detect_tools ["enfourner", "cuire vapeur"] = ["TM7", "Four", "Varoma"] :=
  ⟨by decide, (c9_detect_tools _).2.2 (by decide)⟩

theorem wsRunsOk_singleton (c : Char) : wsRunsOk [c] = (!isPySpace c || c = ' ') := rfl

theorem wsRunsOk_cons₂ (c d : Char) (rest : List Char) :
    wsRunsOk (c :: d :: rest) =
      ((!isPySpace c || (c = ' ' && !isPySpace d)) && wsRunsOk (d :: rest)) := rfl

theorem wsLen_cons_false (c : Char) (cs : List Char) (hc : isPySpace c = false) :
    wsLen (c :: cs) = none := by
  unfold wsLen
  simp [List.takeWhile_cons, hc]

theorem wsLen_cons_lone (c : Char) (cs : List Char) (hc : isPySpace c = true)
    (hcs : cs.takeWhile isPySpace = []) : wsLen (c :: cs) = some 1 := by
  unfold wsLen
  simp [List.takeWhile_cons, hc, hcs]

theorem pySubGo_nil (m : List Char → Option Nat) (repl : List Char) (fuel : Nat) :
    pySubGo m repl fuel [] = [] := by
  cases fuel <;> rfl

/-- If the matcher finds nothing anywhere in the text, the substitution is
the identity. -/
theorem pySubGo_id_of_no_match (m : List Char → Option Nat) (repl : List Char) :
    ∀ (fuel : Nat) (l : List Char), hasMatch m l = false → pySubGo m repl fuel l = l := by
  intro fuel
  induction fuel with
  | zero => intro l _; cases l <;> rfl
  | succ n ih =>
    intro l h
    cases l with
    | nil => rfl
    | cons c cs =>
      unfold hasMatch at h
      rw [Bool.or_eq_false_iff] at h
      obtain ⟨h₁, h₂⟩ := h
      unfold pySubGo
      cases hm : m (c :: cs) with
      | some k => rw [hm] at h₁; simp at h₁
      | none => simp [ih cs h₂]

theorem pySub_id_of_no_match (m : List Char → Option Nat) (repl : List Char)
    (l : List Char) (h : hasMatch m l = false) : pySub m repl l = l :=
  pySubGo_id_of_no_match m repl l.length l h

/-- If every whitespace character is a lone space, collapsing `\s+` to a
single space is the identity. -/
theorem pySubGo_ws_id :
    ∀ (fuel : Nat) (l : List Char), wsRunsOk l = true → pySubGo wsLen [' '] fuel l = l := by
  intro fuel
  induction fuel with
  | zero => intro l _; cases l <;> rfl
  | succ n ih =>
    intro l h
    cases l with
    | nil => rfl
    | cons c cs =>
      cases cs with
      | nil =>
        rw [wsRunsOk_singleton] at h
        cases hc : isPySpace c with
        | false =>
          unfold pySubGo
          rw [wsLen_cons_false c [] hc]
          simp [pySubGo_nil]
        | true =>
          rw [hc] at h
          simp only [Bool.not_true, Bool.false_or, decide_eq_true_eq] at h
          unfold pySubGo
          rw [wsLen_cons_lone c [] hc rfl]
          subst h
          simp [pySubGo_nil]
      | cons d rest =>
        rw [wsRunsOk_cons₂, Bool.and_eq_true] at h
        obtain ⟨hcd, hrest⟩ := h
        cases hc : isPySpace c with
        | false =>
          unfold pySubGo
          rw [wsLen_cons_false c (d :: rest) hc]
          rw [ih _ hrest]
        | true =>
          rw [hc] at hcd
          simp only [Bool.not_true, Bool.false_or, Bool.and_eq_true,
            decide_eq_true_eq, Bool.not_eq_true'] at hcd
          obtain ⟨hc', hd⟩ := hcd
          unfold pySubGo
          rw [wsLen_cons_lone c (d :: rest) hc (by simp [List.takeWhile_cons, hd])]
          subst hc'
          simp only [List.drop_succ_cons]
          rw [show (1 - 1 : Nat) = 0 from rfl, List.drop_zero]
          rw [ih _ hrest]
          rfl

theorem pySub_ws_id (l : List Char) (h : wsRunsOk l = true) :
    pySub wsLen [' '] l = l :=
  pySubGo_ws_id l.length l h

theorem dropWhile_id_of_head (p : Char → Bool) (l : List Char)
    (h : (match l.head? with | none => true | some c => !p c) = true) :
    l.dropWhile p = l := by
  cases l with
  | nil => rfl
  | cons c cs =>
    simp only [List.head?] at h
    rw [Bool.not_eq_true'] at h
    simp [List.dropWhile_cons, h]

/-- Stripping is the identity when neither end is whitespace. -/
theorem pyStrip_id (s : String)
    (h1 : (match s.data.head? with | none => true | some c => !isPySpace c) = true)
    (h2 : (match s.data.getLast? with | none => true | some c => !isPySpace c) = true) :
    pyStrip s = s := by
  unfold pyStrip
  rw [dropWhile_id_of_head _ _ h1]
  rw [dropWhile_id_of_head _ _ (by rw [List.head?_reverse]; exact h2)]
  rw [List.reverse_reverse]

/-- C6 counterexample: cleaning is not idempotent — the trailing-period rule
rewrites one period pair per pass, so `"a..."` cleans to `"a.."` and that
cleans again to `"a."`. -/
theorem c6_counterexample :
    _clean_description "a..." = "a.." ∧
    _clean_description (_clean_description "a...") = "a." ∧
    decide (("a.." : String) = "a.") = false :=
  ⟨rfl, rfl, rfl⟩

/-- C6 (amended): cleaning already-clean text is a no-op, where already
clean means: none of the cleaner's removal/rewrite patterns matches,
whitespace is collapsed to single spaces with none at either end, and the
text does not end in two (possibly space-separated) periods.  Unrestricted
idempotence fails (see the counterexample). -/
theorem c6_clean_fixed (t : String) (h : alreadyCleanText t = true) :
    _clean_description t = t := by
  unfold alreadyCleanText at h
  simp only [Bool.and_eq_true, Bool.not_eq_true'] at h
  obtain ⟨⟨⟨⟨⟨hold, htts⟩, hdans⟩, hdu⟩, hws⟩, hdot⟩ := h
  unfold wsCanon at hws
  simp only [Bool.and_eq_true] at hws
  obtain ⟨⟨hhead, hlast⟩, hruns⟩ := hws
  have e0 := pySub_id_of_no_match oldTtsLen " ".data t.data hold
  have e1 := pySub_id_of_no_match ttsLen " ".data t.data htts
  have e2 := pySub_id_of_no_match thermoDansLen "dans le bol".data t.data hdans
  have e3 := pySub_id_of_no_match thermoDuLen [] t.data hdu
  have e4 := pySub_ws_id t.data hruns
  have e5 : pyStrip ⟨t.data⟩ = t := pyStrip_id ⟨t.data⟩ hhead hlast
  have e6 := pySub_id_of_no_match dotEndLen ['.'] t.data hdot
  calc _clean_description t
      = (⟨pySub dotEndLen ['.'] (pyStrip ⟨pySub wsLen [' ']
          (pySub thermoDuLen [] (pySub thermoDansLen "dans le bol".data
            (pySub ttsLen " ".data (pySub oldTtsLen " ".data t.data))))⟩).data⟩ :
          String) := rfl
    _ = t := by
      rw [e0, e1, e2, e3, e4, e5, e6]

/-- Witness for C6 at a concrete clean sentence. -/
theorem c6_witness :
    alreadyCleanText "Ajouter le sel." = true ∧
    _clean_description "Ajouter le sel." = "Ajouter le sel." :=
  ⟨rfl, c6_clean_fixed _ rfl⟩

theorem strData_append (a b : String) : (a ++ b).data = a.data ++ b.data := rfl

theorem digitChar_mem_digits (m : Nat) (h : m < 10) : Nat.digitChar m ∈ DIGITS := by
  interval_cases m <;> decide

theorem toDigitsCore_mem :
    ∀ (fuel n : Nat) (acc : List Char), (∀ c ∈ acc, c ∈ DIGITS) →
      ∀ c ∈ Nat.toDigitsCore 10 fuel n acc, c ∈ DIGITS := by
  intro fuel
  induction fuel with
  | zero => intro n acc hacc c hc; exact hacc c hc
  | succ f ih =>
    intro n acc hacc c hc
    simp only [Nat.toDigitsCore] at hc
    have hd : Nat.digitChar (n % 10) ∈ DIGITS :=
      digitChar_mem_digits _ (Nat.mod_lt _ (by norm_num))
    have hacc' : ∀ x ∈ Nat.digitChar (n % 10) :: acc, x ∈ DIGITS := by
      intro x hx
      rcases List.mem_cons.mp hx with h | h
      · exact h ▸ hd
      · exact hacc x h
    by_cases h0 : n / 10 = 0
    · rw [if_pos h0] at hc
      exact hacc' c hc
    · rw [if_neg h0] at hc
      exact ih _ _ hacc' c hc

theorem natRepr_mem (n : Nat) : ∀ c ∈ (Nat.repr n).data, c ∈ DIGITS := by
  intro c hc
  exact toDigitsCore_mem _ _ _ (by intro x hx; cases hx) c hc

theorem intRepr_mem (i : ℤ) : ∀ c ∈ (Int.repr i).data, c ∈ '-' :: DIGITS := by
  intro c hc
  cases i with
  | ofNat m => exact List.mem_cons_of_mem _ (natRepr_mem m c hc)
  | negSucc m =>
    have he : (Int.repr (Int.negSucc m)).data = '-' :: (Nat.repr (m + 1)).data := rfl
    rw [he] at hc
    rcases List.mem_cons.mp hc with h | h
    · exact h ▸ List.mem_cons_self _ _
    · exact List.mem_cons_of_mem _ (natRepr_mem _ c h)

theorem joinFold_mem (sep : String) (ps : List String) :
    ∀ (acc : String) (c : Char), c ∈ (ps.foldl (fun a b => a ++ sep ++ b) acc).data →
      c ∈ acc.data ∨ c ∈ sep.data ∨ ∃ p ∈ ps, c ∈ p.data := by
  induction ps with
  | nil => intro acc c hc; exact Or.inl hc
  | cons p ps ih =>
    intro acc c hc
    rcases ih _ c hc with h | h | ⟨q, hq, hcq⟩
    · rw [strData_append, strData_append] at h
      rcases List.mem_append.mp h with h | h
      · rcases List.mem_append.mp h with h | h
        · exact Or.inl h
        · exact Or.inr (Or.inl h)
      · exact Or.inr (Or.inr ⟨p, List.mem_cons_self _ _, h⟩)
    · exact Or.inr (Or.inl h)
    · exact Or.inr (Or.inr ⟨q, List.mem_cons_of_mem _ hq, hcq⟩)

theorem pyJoin_mem (sep : String) (parts : List String) (c : Char)
    (hc : c ∈ (pyJoin sep parts).data) :
    c ∈ sep.data ∨ ∃ p ∈ parts, c ∈ p.data := by
  cases parts with
  | nil => cases hc
  | cons p ps =>
    rcases joinFold_mem sep ps p c hc with h | h | ⟨q, hq, hcq⟩
    · exact Or.inr ⟨p, List.mem_cons_self _ _, h⟩
    · exact Or.inl h
    · exact Or.inr ⟨q, List.mem_cons_of_mem _ hq, hcq⟩

theorem leadMatch_mem : ∀ (nd l : List Char), leadMatch nd l = true → ∀ c ∈ nd, c ∈ l := by
  intro nd
  induction nd with
  | nil => intro l _ c hc; cases hc
  | cons p ps ih =>
    intro l h c hc
    cases l with
    | nil => simp [leadMatch] at h
    | cons a as =>
      unfold leadMatch at h
      rw [Bool.and_eq_true] at h
      obtain ⟨h1, h2⟩ := h
      have hpa : p = a := by simpa using h1
      rcases List.mem_cons.mp hc with h | h
      · exact (h.trans hpa) ▸ List.mem_cons_self _ _
      · exact List.mem_cons_of_mem _ (ih as h2 c h)

theorem seqContains_mem : ∀ (hay nd : List Char), seqContains hay nd = true →
    ∀ c ∈ nd, c ∈ hay := by
  intro hay
  induction hay with
  | nil =>
    intro nd h c hc
    cases nd with
    | nil => cases hc
    | cons a as => simp [seqContains, leadMatch] at h
  | cons a as ih =>
    intro nd h c hc
    unfold seqContains at h
    rw [Bool.or_eq_true] at h
    rcases h with h | h
    · exact leadMatch_mem nd _ h c hc
    · exact List.mem_cons_of_mem _ (ih nd h c hc)

theorem timeDetails_mem (step : ThermomixStep) (s : String)
    (hs : s ∈ ttsTimeDetails step) (c : Char) (hc : c ∈ s.data) :
    c ∈ '-' :: DIGITS ∨ c ∈ [' ', 'm', 'i', 'n', 's', 'e', 'c'] := by
  unfold ttsTimeDetails at hs
  cases hd : truthyInt step.duration_seconds with
  | false => simp [hd] at hs
  | true =>
    simp only [hd, if_true] at hs
    by_cases hm : Int.fdiv (step.duration_seconds.getD 0) 60 > 0
    · rw [if_pos hm] at hs
      rw [List.mem_singleton] at hs
      subst hs
      rw [strData_append, strData_append] at hc
      rcases List.mem_append.mp hc with h | h
      · rcases List.mem_append.mp h with h | h
        · exact Or.inl (intRepr_mem _ c h)
        · exact Or.inr ((by decide :
            ∀ x ∈ (" min" : String).data, x ∈ [' ', 'm', 'i', 'n', 's', 'e', 'c']) c h)
      · by_cases hsec : Int.fmod (step.duration_seconds.getD 0) 60 ≠ 0
        · rw [if_pos hsec] at h
          rw [strData_append, strData_append] at h
          rcases List.mem_append.mp h with h | h
          · rcases List.mem_append.mp h with h | h
            · exact Or.inr ((by decide :
                ∀ x ∈ (" " : String).data, x ∈ [' ', 'm', 'i', 'n', 's', 'e', 'c']) c h)
            · exact Or.inl (intRepr_mem _ c h)
          · exact Or.inr ((by decide :
              ∀ x ∈ (" sec" : String).data, x ∈ [' ', 'm', 'i', 'n', 's', 'e', 'c']) c h)
        · rw [if_neg hsec] at h
          cases h
    · rw [if_neg hm] at hs
      rw [List.mem_singleton] at hs
      subst hs
      rw [strData_append] at hc
      rcases List.mem_append.mp hc with h | h
      · exact Or.inl (intRepr_mem _ c h)
      · exact Or.inr ((by decide :
          ∀ x ∈ (" sec" : String).data, x ∈ [' ', 'm', 'i', 'n', 's', 'e', 'c']) c h)

theorem tempDetails_mem (step : ThermomixStep) (s : String)
    (hs : s ∈ ttsTempDetails step) (c : Char) (hc : c ∈ s.data) :
    (step.is_varoma = true ∧ c ∈ "Varoma".data) ∨
    (step.is_varoma = false ∧ (c ∈ '-' :: DIGITS ∨ c ∈ ['°', 'C'])) := by
  unfold ttsTempDetails at hs
  cases hv : step.is_varoma with
  | true =>
    simp only [hv, if_true] at hs
    rw [List.mem_singleton] at hs
    subst hs
    exact Or.inl ⟨rfl, hc⟩
  | false =>
    simp only [hv, Bool.false_eq_true, if_false] at hs
    cases ht : truthyInt step.temperature with
    | false => simp [ht] at hs
    | true =>
      simp only [ht, if_true] at hs
      rw [List.mem_singleton] at hs
      subst hs
      rw [strData_append] at hc
      rcases List.mem_append.mp hc with h | h
      · exact Or.inr ⟨rfl, Or.inl (intRepr_mem _ c h)⟩
      · exact Or.inr ⟨rfl, Or.inr
          ((by decide : ∀ x ∈ ("°C" : String).data, x ∈ ['°', 'C']) c h)⟩

theorem speedDetails_mem (step : ThermomixStep) (locale : String) (s : String)
    (hs : s ∈ ttsSpeedDetails step locale) (c : Char) (hc : c ∈ s.data) :
    (step.is_turbo = true ∧ c ∈ "Turbo".data) ∨
    (step.is_turbo = false ∧
      (c ∈ '-' :: DIGITS ∨ c ∈ [' ', 'v', 'i', 't', 'e', 's', 'p', 'd'])) := by
  unfold ttsSpeedDetails at hs
  cases htb : step.is_turbo with
  | true =>
    simp only [htb, if_true] at hs
    rw [List.mem_singleton] at hs
    subst hs
    exact Or.inl ⟨rfl, hc⟩
  | false =>
    simp only [htb, Bool.false_eq_true, if_false] at hs
    cases hsp : truthyInt step.speed with
    | false => simp [hsp] at hs
    | true =>
      simp only [hsp, if_true] at hs
      rw [List.mem_singleton] at hs
      subst hs
      rw [strData_append, strData_append] at hc
      rcases List.mem_append.mp hc with h | h
      · rcases List.mem_append.mp h with h | h
        · by_cases hf : strStarts locale "fr"
          · rw [if_pos hf] at h
            exact Or.inr ⟨rfl, Or.inr ((by decide :
              ∀ x ∈ ("vitesse" : String).data,
                x ∈ [' ', 'v', 'i', 't', 'e', 's', 'p', 'd']) c h)⟩
          · rw [if_neg hf] at h
            exact Or.inr ⟨rfl, Or.inr ((by decide :
              ∀ x ∈ ("speed" : String).data,
                x ∈ [' ', 'v', 'i', 't', 'e', 's', 'p', 'd']) c h)⟩
        · exact Or.inr ⟨rfl, Or.inr ((by decide :
            ∀ x ∈ (" " : String).data,
              x ∈ [' ', 'v', 'i', 't', 'e', 's', 'p', 'd']) c h)⟩
      · exact Or.inr ⟨rfl, Or.inl (intRepr_mem _ c h)⟩

/-- Every character of the rendered parameter suffix comes from the slash,
a number, a time word, or the flag-selected temperature/speed marker. -/
theorem sfx_char_bound (step : ThermomixStep) (locale : String) (c : Char)
    (hc : c ∈ (pyJoin "/" (ttsTimeDetails step ++ ttsTempDetails step ++
      ttsSpeedDetails step locale)).data) :
    c = '/' ∨ c ∈ '-' :: DIGITS ∨ c ∈ [' ', 'm', 'i', 'n', 's', 'e', 'c'] ∨
    (step.is_varoma = true ∧ c ∈ "Varoma".data) ∨
    (step.is_varoma = false ∧ c ∈ ['°', 'C']) ∨
    (step.is_turbo = true ∧ c ∈ "Turbo".data) ∨
    (step.is_turbo = false ∧ c ∈ [' ', 'v', 'i', 't', 'e', 's', 'p', 'd']) := by
  rcases pyJoin_mem _ _ _ hc with h | ⟨p, hp, hcp⟩
  · left
    simpa using h
  · rcases List.mem_append.mp hp with hp | hp
    · rcases List.mem_append.mp hp with hp | hp
      · rcases timeDetails_mem step p hp c hcp with h | h
        · exact Or.inr (Or.inl h)
        · exact Or.inr (Or.inr (Or.inl h))
      · rcases tempDetails_mem step p hp c hcp with h | ⟨hv, h⟩
        · exact Or.inr (Or.inr (Or.inr (Or.inl h)))
        · rcases h with h | h
          · exact Or.inr (Or.inl h)
          · exact Or.inr (Or.inr (Or.inr (Or.inr (Or.inl ⟨hv, h⟩))))
    · rcases speedDetails_mem step locale p hp c hcp with h | ⟨ht, h⟩
      · exact Or.inr (Or.inr (Or.inr (Or.inr (Or.inr (Or.inl h)))))
      · rcases h with h | h
        · exact Or.inr (Or.inl h)
        · exact Or.inr (Or.inr (Or.inr (Or.inr (Or.inr (Or.inr ⟨ht, h⟩)))))

/-- C8: in the rendered parameter suffix, the turbo marker and a numeric
speed marker are mutually exclusive, and the Varoma marker and a numeric
temperature marker are mutually exclusive — even when the underlying step
fields hold both a numeric value and the flag; and the TTS annotation
payload carries the turbo/Varoma marker, never the numeric string, when the
flag is set.  (The description itself is free text and not part of the
parameter rendering.) -/
theorem c8_rendering_exclusive (step : ThermomixStep) (locale : String) :
    (∀ sfx, step.tts_text locale = some sfx →
      (strContains sfx "Turbo" = true →
        strContains sfx "vitesse" = false ∧ strContains sfx "speed" = false) ∧
      (strContains sfx "Varoma" = true → strContains sfx "°C" = false)) ∧
    (∀ a, _build_tts_ann_from_step step locale = some a →
      (step.is_turbo = true → a.speed = some "Turbo") ∧
      (step.is_varoma = true → a.temperature_value = some "varoma")) := by
  constructor
  · intro sfx hsfx
    have hjoin : pyJoin "/" (ttsTimeDetails step ++ ttsTempDetails step ++
        ttsSpeedDetails step locale) = sfx := by
      simp only [ThermomixStep.tts_text] at hsfx
      split at hsfx
      · injection hsfx
      · cases hsfx
    constructor
    · intro hT
      have hTc : 'T' ∈ sfx.data := seqContains_mem _ _ hT 'T' (by decide)
      rw [← hjoin] at hTc
      have hturbo : step.is_turbo = true := by
        rcases sfx_char_bound step locale 'T' hTc with
          h | h | h | ⟨_, h⟩ | ⟨_, h⟩ | ⟨ht, _⟩ | ⟨_, h⟩
        · exact absurd h (by decide)
        · exact absurd h (by decide)
        · exact absurd h (by decide)
        · exact absurd h (by decide)
        · exact absurd h (by decide)
        · exact ht
        · exact absurd h (by decide)
      constructor
      · cases hvv : strContains sfx "vitesse" with
        | false => rfl
        | true =>
          have hvc : 'v' ∈ sfx.data := seqContains_mem _ _ hvv 'v' (by decide)
          rw [← hjoin] at hvc
          rcases sfx_char_bound step locale 'v' hvc with
            h | h | h | ⟨_, h⟩ | ⟨_, h⟩ | ⟨_, h⟩ | ⟨hf, _⟩
          · exact absurd h (by decide)
          · exact absurd h (by decide)
          · exact absurd h (by decide)
          · exact absurd h (by decide)
          · exact absurd h (by decide)
          · exact absurd h (by decide)
          · rw [hturbo] at hf; cases hf
      · cases hpp : strContains sfx "speed" with
        | false => rfl
        | true =>
          have hpc : 'p' ∈ sfx.data := seqContains_mem _ _ hpp 'p' (by decide)
          rw [← hjoin] at hpc
          rcases sfx_char_bound step locale 'p' hpc with
            h | h | h | ⟨_, h⟩ | ⟨_, h⟩ | ⟨_, h⟩ | ⟨hf, _⟩
          · exact absurd h (by decide)
          · exact absurd h (by decide)
          · exact absurd h (by decide)
          · exact absurd h (by decide)
          · exact absurd h (by decide)
          · exact absurd h (by decide)
          · rw [hturbo] at hf; cases hf
    · intro hV
      have hVc : 'V' ∈ sfx.data := seqContains_mem _ _ hV 'V' (by decide)
      rw [← hjoin] at hVc
      have hvar : step.is_varoma = true := by
        rcases sfx_char_bound step locale 'V' hVc with
          h | h | h | ⟨hv, _⟩ | ⟨_, h⟩ | ⟨_, h⟩ | ⟨_, h⟩
        · exact absurd h (by decide)
        · exact absurd h (by decide)
        · exact absurd h (by decide)
        · exact hv
        · exact absurd h (by decide)
        · exact absurd h (by decide)
        · exact absurd h (by decide)
      cases hdd : strContains sfx "°C" with
      | false => rfl
      | true =>
        have hdc : '°' ∈ sfx.data := seqContains_mem _ _ hdd '°' (by decide)
        rw [← hjoin] at hdc
        rcases sfx_char_bound step locale '°' hdc with
          h | h | h | ⟨_, h⟩ | ⟨hf, _⟩ | ⟨_, h⟩ | ⟨_, h⟩
        · exact absurd h (by decide)
        · exact absurd h (by decide)
        · exact absurd h (by decide)
        · exact absurd h (by decide)
        · rw [hvar] at hf; cases hf
        · exact absurd h (by decide)
        · exact absurd h (by decide)
  · intro a ha
    unfold _build_tts_ann_from_step at ha
    cases htts : step.tts_text locale with
    | none => rw [htts] at ha; cases ha
    | some s =>
      simp only [htts] at ha
      by_cases hs : s = ""
      · rw [if_pos hs] at ha; cases ha
      · rw [if_neg hs] at ha
        injection ha with ha
        constructor
        · intro ht; rw [← ha]; simp [ht]
        · intro hv; rw [← ha]; simp [hv]

/-- Witness for C8 at a step holding both flags and both numeric values. -/
theorem c8_witness :
    ThermomixStep.tts_text c8Step "fr" = some "1 min 30 sec/Varoma/Turbo" ∧
    strContains "1 min 30 sec/Varoma/Turbo" "Turbo" = true ∧
    strContains "1 min 30 sec/Varoma/Turbo" "vitesse" = false ∧
    strContains "1 min 30 sec/Varoma/Turbo" "speed" = false ∧
    strContains "1 min 30 sec/Varoma/Turbo" "Varoma" = true ∧
    strContains "1 min 30 sec/Varoma/Turbo" "°C" = false ∧
    (∃ a, _build_tts_ann_from_step c8Step "fr" = some a ∧
      a.speed = some "Turbo" ∧ a.temperature_value = some "varoma") := by
  have h := c8_rendering_exclusive c8Step "fr"
  refine ⟨rfl, rfl, ?_, ?_, rfl, ?_, ?_⟩
  · exact ((h.1 _ rfl).1 rfl).1
  · exact ((h.1 _ rfl).1 rfl).2
  · exact (h.1 _ rfl).2 rfl
  · exact ⟨_, rfl, (h.2 _ rfl).1 rfl, (h.2 _ rfl).2 rfl⟩
